import Mathlib

/-!
Verification of the RhinoAssemblyOutliner native core: a shallow embedding of
the visibility-state store (`CVisibilityData`, VisibilityData.h), its per-frame
snapshot (`CVisibilitySnapshot`), the persistence codec
(`SerializeVisibilityState` / `DeserializeVisibilityState`, NativeApi.cpp) and
the render-filter traversals (`CVisibilityConduit`, VisibilityConduit.cpp).

Modelling conventions:
- `ON_UUID` instance identifiers are modelled as `Nat`; the host functions
  `ON_UuidToString` / `ON_UuidFromString` (openNURBS, out of scope of the core)
  are modelled as an injective decimal rendering with a partial decimal parse,
  so that decode (encode id) = id and a non-numeric string fails to parse.
- `std::string` values (component paths, persisted text) are `List Char`.
- `std::unordered_map` / `std::unordered_set` are association lists / lists
  with the operations the source performs (find, operator[] upsert, erase,
  count); iteration order of the hash containers is unspecified in C++, the
  model fixes insertion order.  All properties proved below are
  order-insensitive (lookups, membership, observational equivalence).
- The `CRITICAL_SECTION` lock serialises every public method; the embedding
  therefore gives each method as a pure function on the whole store value.
-/

/-- Component state enum from VisibilityData.h (ordinals 0..3). -/
inductive ComponentState where
  | CS_VISIBLE
  | CS_HIDDEN
  | CS_SUPPRESSED
  | CS_TRANSPARENT
deriving DecidableEq

open ComponentState

/-- Integer ordinal of a `ComponentState`, as produced by the `(int)` cast in
`SerializeVisibilityState`. -/
def ComponentState.ord : ComponentState → Nat
  | CS_VISIBLE => 0
  | CS_HIDDEN => 1
  | CS_SUPPRESSED => 2
  | CS_TRANSPARENT => 3

/-- The `static_cast<ComponentState>(state)` applied in
`DeserializeVisibilityState` after the range check `0 <= state <= 3`. -/
def ComponentState.ofOrd : Nat → ComponentState
  | 0 => CS_VISIBLE
  | 1 => CS_HIDDEN
  | 2 => CS_SUPPRESSED
  | _ => CS_TRANSPARENT

/-- Instance identifier (models `ON_UUID`). -/
abbrev InstanceId := Nat

/-- Component path: a `std::string` such as "1.0.2" (dot-joined indices). -/
abbrev PathStr := List Char

/-- Association-list lookup: models `std::unordered_map::find` (first — and in
a real map, only — binding of the key). -/
def alookup {α β : Type} [DecidableEq α] : List (α × β) → α → Option β
  | [], _ => none
  | (k2, v) :: rest, k => if k2 = k then some v else alookup rest k

/-- Association-list upsert: models `map[k] = v` (replace the binding if the
key is present, append a fresh binding otherwise). -/
def aupsert {α β : Type} [DecidableEq α] : List (α × β) → α → β → List (α × β)
  | [], k, v => [(k, v)]
  | (k2, v2) :: rest, k, v =>
    if k2 = k then (k2, v) :: rest else (k2, v2) :: aupsert rest k v

/-- Association-list erase: models `map.erase(k)`. -/
def aerase {α β : Type} [DecidableEq α] : List (α × β) → α → List (α × β)
  | [], _ => []
  | (k2, v2) :: rest, k =>
    if k2 = k then aerase rest k else (k2, v2) :: aerase rest k

/-- Indices at which the character '.' occurs in a path, in increasing order. -/
def dotPositions : List Char → List Nat
  | [] => []
  | c :: rest =>
    (if c = '.' then [0] else []) ++ (dotPositions rest).map (fun i => i + 1)

/-- Strict ancestors of a path, exactly as the `rfind('.')` loop of
`CVisibilityData::RebuildPrefixes` produces them: for every occurrence of '.',
the proper initial segment below it, visited from the last '.' to the first
(for "1.0.2" this yields "1.0" then "1").  Cutting the path at its last dot and
then repeatedly cutting the remaining head at its last dot enumerates exactly
the initial segments below each dot position, in decreasing position order. -/
def strictAncestors (p : PathStr) : List PathStr :=
  (dotPositions p).reverse.map (fun i => p.take i)

/-- Prefix set built by `CVisibilityData::RebuildPrefixes` from one instance's
path-state map: for every stored path, the path itself then all its strict
ancestors are inserted. -/
def prefixSetOf (m : List (PathStr × ComponentState)) : List PathStr :=
  m.flatMap (fun pc => pc.1 :: strictAncestors pc.1)

/-- Per-instance payload of `CVisibilitySnapshot` (struct `InstanceData`):
the copied path-state map plus the copied parent-prefix set. -/
structure CVisibilitySnapshot.InstanceData where
  states : List (PathStr × ComponentState)
  parentPrefixes : List PathStr
deriving DecidableEq

/-- Lock-free per-frame snapshot (`CVisibilitySnapshot`). -/
structure CVisibilitySnapshot where
  m_data : List (InstanceId × CVisibilitySnapshot.InstanceData)
deriving DecidableEq

/-- Snapshot query `CVisibilitySnapshot::IsManaged`. -/
def CVisibilitySnapshot.IsManaged (snap : CVisibilitySnapshot)
    (instanceId : InstanceId) : Bool :=
  match alookup snap.m_data instanceId with
  | none => false
  | some inst => !inst.states.isEmpty

/-- Snapshot query `CVisibilitySnapshot::GetComponentState` (CS_VISIBLE when
the instance or the path is absent). -/
def CVisibilitySnapshot.GetComponentState (snap : CVisibilitySnapshot)
    (instanceId : InstanceId) (path : PathStr) : ComponentState :=
  match alookup snap.m_data instanceId with
  | none => CS_VISIBLE
  | some inst =>
    match alookup inst.states path with
    | none => CS_VISIBLE
    | some s => s

/-- Snapshot query `CVisibilitySnapshot::HasHiddenDescendants`: membership of
the queried path in the copied parent-prefix set. -/
def CVisibilitySnapshot.HasHiddenDescendants (snap : CVisibilitySnapshot)
    (instanceId : InstanceId) (pfx : PathStr) : Bool :=
  match alookup snap.m_data instanceId with
  | none => false
  | some inst => decide (pfx ∈ inst.parentPrefixes)

/-- Snapshot query `CVisibilitySnapshot::GetManagedInstanceIds`. -/
def CVisibilitySnapshot.GetManagedInstanceIds
    (snap : CVisibilitySnapshot) : List InstanceId :=
  snap.m_data.filterMap (fun pr =>
    if pr.2.states.isEmpty then none else some pr.1)

/-- The thread-safe visibility store `CVisibilityData`: instance UUID to
path-state map (`m_data`) plus the derived parent-prefix sets
(`m_prefixes`).  Every public method of the C++ class holds the store's
`CRITICAL_SECTION` for its whole body, so each is modelled as a pure function
of the entire store value. -/
structure CVisibilityData where
  m_data : List (InstanceId × List (PathStr × ComponentState))
  m_prefixes : List (InstanceId × List PathStr)
deriving DecidableEq

/-- A store with no data: the freshly constructed `CVisibilityData`. -/
def emptyStore : CVisibilityData := ⟨[], []⟩

/-- Private helper `CVisibilityData::RebuildPrefixes`: recompute the parent
prefix set of one instance from its current path-state map; drop the prefix
entry entirely when the instance has no stored paths. -/
def CVisibilityData.RebuildPrefixes (s : CVisibilityData)
    (instanceId : InstanceId) : CVisibilityData :=
  match alookup s.m_data instanceId with
  | none => ⟨s.m_data, aerase s.m_prefixes instanceId⟩
  | some m =>
    if m = [] then ⟨s.m_data, aerase s.m_prefixes instanceId⟩
    else ⟨s.m_data, aupsert s.m_prefixes instanceId (prefixSetOf m)⟩

/-- Mutator `CVisibilityData::SetState`: CS_VISIBLE removes the path entry
(dropping the whole instance record once empty), any other state upserts it;
both branches then rebuild the instance's prefix set. -/
def CVisibilityData.SetState (s : CVisibilityData) (instanceId : InstanceId)
    (path : PathStr) (state : ComponentState) : CVisibilityData :=
  if state = CS_VISIBLE then
    let data1 :=
      match alookup s.m_data instanceId with
      | none => s.m_data
      | some m =>
        let m2 := aerase m path
        if m2 = [] then aerase s.m_data instanceId
        else aupsert s.m_data instanceId m2
    CVisibilityData.RebuildPrefixes ⟨data1, s.m_prefixes⟩ instanceId
  else
    let m := (alookup s.m_data instanceId).getD []
    let data1 := aupsert s.m_data instanceId (aupsert m path state)
    CVisibilityData.RebuildPrefixes ⟨data1, s.m_prefixes⟩ instanceId

/-- Query `CVisibilityData::GetState` (CS_VISIBLE when absent). -/
def CVisibilityData.GetState (s : CVisibilityData) (instanceId : InstanceId)
    (path : PathStr) : ComponentState :=
  match alookup s.m_data instanceId with
  | none => CS_VISIBLE
  | some m =>
    match alookup m path with
    | none => CS_VISIBLE
    | some st => st

/-- Mutator `CVisibilityData::ResetInstance`: drop the instance's state map and
its prefix set. -/
def CVisibilityData.ResetInstance (s : CVisibilityData)
    (instanceId : InstanceId) : CVisibilityData :=
  ⟨aerase s.m_data instanceId, aerase s.m_prefixes instanceId⟩

/-- Query `CVisibilityData::IsManaged`: the instance has at least one stored
(non-visible) path. -/
def CVisibilityData.IsManaged (s : CVisibilityData)
    (instanceId : InstanceId) : Bool :=
  match alookup s.m_data instanceId with
  | none => false
  | some m => !m.isEmpty

/-- Query `CVisibilityData::HasHiddenDescendants`: membership in the
precomputed prefix set. -/
def CVisibilityData.HasHiddenDescendants (s : CVisibilityData)
    (instanceId : InstanceId) (pfx : PathStr) : Bool :=
  match alookup s.m_prefixes instanceId with
  | none => false
  | some ps => decide (pfx ∈ ps)

/-- Query `CVisibilityData::GetHiddenCount`: the size of the instance's stored
path-state map (zero when absent). -/
def CVisibilityData.GetHiddenCount (s : CVisibilityData)
    (instanceId : InstanceId) : Nat :=
  match alookup s.m_data instanceId with
  | none => 0
  | some m => m.length

/-- Mutator `CVisibilityData::ClearAll`. -/
def CVisibilityData.ClearAll (_s : CVisibilityData) : CVisibilityData :=
  ⟨[], []⟩

/-- Query `CVisibilityData::GetManagedInstanceIds`: ids of all instances whose
state map is non-empty. -/
def CVisibilityData.GetManagedInstanceIds (s : CVisibilityData) :
    List InstanceId :=
  s.m_data.filterMap (fun pr => if pr.2.isEmpty then none else some pr.1)

/-- Factory `CVisibilityData::TakeSnapshot`: under the lock, deep-copy every
non-empty instance record (states by value, prefixes by value, defaulting to
the empty set when no prefix entry exists) into a fresh snapshot. -/
def CVisibilityData.TakeSnapshot (s : CVisibilityData) : CVisibilitySnapshot :=
  ⟨s.m_data.filterMap (fun pr =>
    if pr.2.isEmpty then none
    else some (pr.1,
      ⟨pr.2, (alookup s.m_prefixes pr.1).getD []⟩))⟩

/-- Newline character (the '\n' separators in the persisted text format). -/
def nlChar : Char := Char.ofNat 10

/-- Decimal digit test, as `'0' <= c && c <= '9'`. -/
def isDigitChar (c : Char) : Bool := 48 ≤ c.toNat && c.toNat ≤ 57

/-- C `isspace` for the default locale: space, tab, newline, vertical tab,
form feed, carriage return (used by `atoi`). -/
def isSpaceChar (c : Char) : Bool :=
  c.toNat = 32 || (9 ≤ c.toNat && c.toNat ≤ 13)

/-- Fuel-driven digit emitter for `natToChars` (the fuel makes the recursion
structural; `natToChars` always supplies enough fuel). -/
def natToCharsAux : Nat → Nat → List Char
  | 0, _ => []
  | fuel + 1, n =>
    if n < 10 then [Char.ofNat (48 + n)]
    else natToCharsAux fuel (n / 10) ++ [Char.ofNat (48 + n % 10)]

/-- Decimal rendering of a natural number (most significant digit first).
Models the host's `ON_UuidToString` (an injective textual encoding of the
128-bit id, here over `Nat`) and the `%d` formatting of state ordinals. -/
def natToChars (n : Nat) : List Char := natToCharsAux (n + 1) n

/-- Accumulating decimal parse; fails on the first non-digit character. -/
def parseDigitsAux (acc : Nat) : List Char → Option Nat
  | [] => some acc
  | c :: rest =>
    if isDigitChar c then parseDigitsAux (acc * 10 + (c.toNat - 48)) rest
    else none

/-- Partial decimal parse of a whole string (none when empty or when any
character is not a digit).  Models the host's `ON_UuidFromString`, which fails
on text that is not a well-formed id — e.g. on "not-a-uuid". -/
def charsToNat? (cs : List Char) : Option Nat :=
  if cs.isEmpty then none else parseDigitsAux 0 cs

/-- Digits read by `atoi` after sign handling: the longest digit head. -/
def atoiDigits (cs : List Char) : Nat :=
  (parseDigitsAux 0 (cs.takeWhile isDigitChar)).getD 0

/-- The C `atoi`: skip leading whitespace, optional sign, then the longest
digit run; zero when no digits follow. -/
def atoiChars (cs : List Char) : Int :=
  match cs.dropWhile isSpaceChar with
  | [] => 0
  | c :: rest =>
    if c = '-' then -(atoiDigits rest : Int)
    else if c = '+' then (atoiDigits rest : Int)
    else (atoiDigits (c :: rest) : Int)

/-- Index of the first occurrence of a character, as `std::string::find`. -/
def findCharIdx (ch : Char) : List Char → Option Nat
  | [] => none
  | c :: rest =>
    if c = ch then some 0 else (findCharIdx ch rest).map (fun i => i + 1)

/-- Split on a separator character.  `splitOnChar sep cs` returns the chunks
between occurrences of `sep`; together with the guards that skip empty lines
and separator-less fields this reproduces the `find`/`substr` scanning loops
of `DeserializeVisibilityState`. -/
def splitOnChar (sep : Char) : List Char → List (List Char)
  | [] => [[]]
  | c :: rest =>
    if c = sep then [] :: splitOnChar sep rest
    else
      match splitOnChar sep rest with
      | [] => [[c]]
      | t :: ts => (c :: t) :: ts

/-- One `<path>:<state>` field of a persisted line, as consumed by the inner
loop of `DeserializeVisibilityState`: no ':' — skip; state ordinal parsed by
`atoi` and range-checked to [0,3] — out of range is skipped; otherwise
`SetState` is invoked. -/
def processEntry (instanceId : InstanceId) (s : CVisibilityData)
    (entry : List Char) : CVisibilityData :=
  match findCharIdx ':' entry with
  | none => s
  | some colon =>
    let path := entry.take colon
    let state : Int := atoiChars (entry.drop (colon + 1))
    if 0 ≤ state ∧ state ≤ 3 then
      s.SetState instanceId path (ComponentState.ofOrd state.toNat)
    else s

/-- One line of persisted text, as consumed by the outer loop of
`DeserializeVisibilityState`: empty line — skip; no '|' — skip; leading field
not a parseable instance id — skip; otherwise every '|'-separated field after
the id is processed by `processEntry`. -/
def processLine (s : CVisibilityData) (line : List Char) : CVisibilityData :=
  if line.isEmpty then s
  else
    match findCharIdx '|' line with
    | none => s
    | some firstPipe =>
      match charsToNat? (line.take firstPipe) with
      | none => s
      | some instanceId =>
        (splitOnChar '|' (line.drop (firstPipe + 1))).foldl
          (processEntry instanceId) s

/-- `DeserializeVisibilityState` (NativeApi.cpp): scan the text line by line
(`find('\n')` / `substr`), handing each line to the line parser. -/
def deserializeVisibilityState (text : List Char) (s : CVisibilityData) :
    CVisibilityData :=
  (splitOnChar nlChar text).foldl processLine s

/-- The `|<path>:<state>` text of one field of a serialized line
(`entry.Format(L"|%S:%d", ...)`). -/
def entryChars (e : PathStr × ComponentState) : List Char :=
  '|' :: (e.1 ++ ':' :: natToChars e.2.ord)

/-- `SerializeVisibilityState` (NativeApi.cpp): for every managed instance id,
one line `<uuid>|<path>:<state>|...` followed by '\n'; the body re-reads the
instance's states from a fresh snapshot and skips the line if that lookup is
empty. -/
def serializeVisibilityState (s : CVisibilityData) : List Char :=
  s.GetManagedInstanceIds.foldl (fun acc instanceId =>
    match alookup s.TakeSnapshot.m_data instanceId with
    | none => acc
    | some inst =>
      if inst.states.isEmpty then acc
      else
        acc ++ (natToChars instanceId ++ inst.states.flatMap entryChars)
            ++ [nlChar]) []

/-- The store mutations reachable through the public native API: direct state
changes (`SetState`, also `SetComponentHidden` / `SetComponentVisible` which
are `SetState` with CS_HIDDEN / CS_VISIBLE), per-object reset, document-close
wipe, and bulk hydration from persisted text. -/
inductive Mutation where
  | setState (instanceId : InstanceId) (path : PathStr) (state : ComponentState)
  | resetInstance (instanceId : InstanceId)
  | clearAll
  | deserialize (text : List Char)

/-- Effect of one mutation on the store. -/
def applyMutation (s : CVisibilityData) : Mutation → CVisibilityData
  | .setState instanceId path state => s.SetState instanceId path state
  | .resetInstance instanceId => s.ResetInstance instanceId
  | .clearAll => s.ClearAll
  | .deserialize text => deserializeVisibilityState text s

/-- Effect of a sequence of mutations, first to last. -/
def applyMutations (s : CVisibilityData) (ops : List Mutation) :
    CVisibilityData :=
  ops.foldl applyMutation s

/-- A frame context: the shared store plus the snapshots already captured by
render passes.  `CVisibilityData::TakeSnapshot` copies the per-instance maps
by value into the snapshot, so the snapshot owns independent data; mutations
act on the store component only. -/
structure RenderWorld where
  store : CVisibilityData
  snaps : List CVisibilitySnapshot

/-- Capture a snapshot into the frame context (`m_snapshot = TakeSnapshot()`). -/
def RenderWorld.capture (w : RenderWorld) : RenderWorld :=
  ⟨w.store, w.snaps ++ [w.store.TakeSnapshot]⟩

/-- Apply store mutations inside a frame context: only the store changes, the
already-captured snapshot values are untouched (value semantics of the copy
made under the lock). -/
def RenderWorld.mutate (w : RenderWorld) (ops : List Mutation) : RenderWorld :=
  ⟨applyMutations w.store ops, w.snaps⟩

/-- Recursion bound `CVisibilityConduit::MAX_NESTING_DEPTH`. -/
def MAX_NESTING_DEPTH : Nat := 32

/-- Helper `CVisibilityConduit::BuildPath`: "parentPath.childIndex", or just
"childIndex" for an empty parent. -/
def buildPath (parentPath : PathStr) (childIndex : Nat) : PathStr :=
  if parentPath.isEmpty then natToChars childIndex
  else parentPath ++ '.' :: natToChars childIndex

/-- Host-side view of one component of an instance definition, as the conduit
observes it through the Rhino SDK: a possibly null object pointer
(`missing`), a plain geometry object, or a nested block instance reference
with its own definition.  `visibleInDoc` is `CRhinoObject::IsVisible`, `geo`
is an opaque tag for the object's geometry (used to identify draw calls and
bounding boxes), `xf` an opaque tag for `InstanceXform`, and `hasDef` is
whether `InstanceDefinition()` is non-null. -/
inductive RhComponent where
  | missing
  | geom (visibleInDoc : Bool) (geo : Nat)
  | instRef (visibleInDoc : Bool) (geo : Nat) (xf : Nat) (hasDef : Bool)
      (children : List RhComponent)

/-- Host-side view of a top-level document object: type flag, selection flag,
its instance transform, and its definition's components. -/
structure RhTopObject where
  isInstanceRef : Bool
  isSelected : Bool
  instanceXform : Nat
  hasDef : Bool
  children : List RhComponent

/-- Document object table (`CRhinoDoc::LookupObject` by instance id). -/
abbrev RhDoc := List (InstanceId × RhTopObject)

/-- One delegated rendering call `dp.DrawObject(pComponent, &xform)`: the
component's geometry tag and the accumulated world transform (a composition
`parent * nested * ...` modelled as the list of transform tags applied). -/
structure DrawCall where
  geo : Nat
  xf : List Nat
deriving DecidableEq

/-- One bounding-box contribution `bbox.Union(transform applied to the
component's BoundingBox())`. -/
structure BoxContrib where
  geo : Nat
  xf : List Nat
deriving DecidableEq

mutual

/-- `CVisibilityConduit::DrawNestedFiltered`: null instance or depth at the
cap returns silently; null definition returns; otherwise iterate the
definition's components with the combined transform. -/
def drawNestedFiltered (snap : CVisibilitySnapshot) (topLevelId : InstanceId)
    (comp : RhComponent) (parentXform : List Nat) (parentPath : PathStr)
    (depth : Nat) : List DrawCall :=
  match comp with
  | .instRef _ _ xf hasDef children =>
    if MAX_NESTING_DEPTH ≤ depth then []
    else if !hasDef then []
    else drawNestedLoop snap topLevelId children 0 (parentXform ++ [xf])
        parentPath depth
  | _ => []

/-- Body of the `for` loop of `DrawNestedFiltered` over component indices:
skip CS_HIDDEN / CS_SUPPRESSED exact states, skip null or document-hidden
objects, recurse into nested instances that have hidden descendants, and
otherwise draw the component (the CS_TRANSPARENT case issues the same
`dp.DrawObject(pComponent, &combinedXform)` call as the normal case). -/
def drawNestedLoop (snap : CVisibilitySnapshot) (topLevelId : InstanceId)
    (children : List RhComponent) (i : Nat) (combinedXform : List Nat)
    (parentPath : PathStr) (depth : Nat) : List DrawCall :=
  match children with
  | [] => []
  | child :: rest =>
    (let childPath := buildPath parentPath i
     let state := snap.GetComponentState topLevelId childPath
     if state = CS_HIDDEN ∨ state = CS_SUPPRESSED then []
     else
       match child with
       | .missing => []
       | .geom vis geo => if !vis then [] else [⟨geo, combinedXform⟩]
       | .instRef vis geo _ _ _ =>
         if !vis then []
         else if snap.HasHiddenDescendants topLevelId childPath then
           drawNestedFiltered snap topLevelId child combinedXform childPath
             (depth + 1)
         else [⟨geo, combinedXform⟩]) ++
    drawNestedLoop snap topLevelId rest (i + 1) combinedXform parentPath depth

end

/-- The `for` loop of the SC_DRAWOBJECT branch of
`CVisibilityConduit::ExecConduit` over the managed instance's top-level
components (paths "0", "1", ...).  In the source the CS_TRANSPARENT leaf
branch computes `transColor` with alpha 80 but never passes it on: both the
transparent branch and the normal branch issue the identical
`dp.DrawObject(pComponent, &instanceXform)` call, which the model makes
explicit by emitting the same `DrawCall` in both branches. -/
def topDrawLoop (snap : CVisibilitySnapshot) (instanceId : InstanceId)
    (children : List RhComponent) (i : Nat) (instXform : List Nat) :
    List DrawCall :=
  match children with
  | [] => []
  | child :: rest =>
    (let path := natToChars i
     let state := snap.GetComponentState instanceId path
     if state = CS_HIDDEN ∨ state = CS_SUPPRESSED then []
     else
       match child with
       | .missing => []
       | .geom vis geo =>
         if !vis then []
         else if state = CS_TRANSPARENT then [⟨geo, instXform⟩]
         else [⟨geo, instXform⟩]
       | .instRef vis geo _ _ _ =>
         if !vis then []
         else if snap.HasHiddenDescendants instanceId path then
           drawNestedFiltered snap instanceId child instXform path 0
         else [⟨geo, instXform⟩]) ++
    topDrawLoop snap instanceId rest (i + 1) instXform

/-- The SC_DRAWOBJECT branch of `CVisibilityConduit::ExecConduit` for one
object: `none` means the conduit leaves `m_bDrawObject` alone and the host
draws the object by its default path (non-instance object, or an instance the
snapshot does not manage); `some calls` means the default draw was suppressed
(`m_bDrawObject = false`) and `calls` are the delegated draw calls the
conduit issued instead (none at all when the definition is null). -/
def execConduitDrawObject (snap : CVisibilitySnapshot)
    (instanceId : InstanceId) (obj : RhTopObject) : Option (List DrawCall) :=
  if !obj.isInstanceRef then none
  else if !(snap.IsManaged instanceId) then none
  else some (
    if !obj.hasDef then []
    else topDrawLoop snap instanceId obj.children 0 [obj.instanceXform])

/-- The `for` loop of `CVisibilityConduit::DrawSelectionHighlights` over one
selected managed instance's top-level components: skip CS_HIDDEN /
CS_SUPPRESSED, skip null or document-hidden objects, draw a nested block
whole only when it has no hidden descendants (the recursion into nested
blocks with hidden descendants is left as a TODO in the source — such a
child produces no highlight draw at all), and draw plain objects. -/
def highlightLoop (snap : CVisibilitySnapshot) (instanceId : InstanceId)
    (children : List RhComponent) (i : Nat) (instXform : List Nat) :
    List DrawCall :=
  match children with
  | [] => []
  | child :: rest =>
    (let path := natToChars i
     let state := snap.GetComponentState instanceId path
     if state = CS_HIDDEN ∨ state = CS_SUPPRESSED then []
     else
       match child with
       | .missing => []
       | .geom vis geo => if !vis then [] else [⟨geo, instXform⟩]
       | .instRef vis geo _ _ _ =>
         if !vis then []
         else if !(snap.HasHiddenDescendants instanceId path) then
           [⟨geo, instXform⟩]
         else []) ++
    highlightLoop snap instanceId rest (i + 1) instXform

/-- `CVisibilityConduit::DrawSelectionHighlights` (SC_POSTDRAWOBJECTS): for
every managed instance id, look the object up in the document; skip it unless
it is a selected instance reference with a definition; then re-draw its
components through `highlightLoop`. -/
def drawSelectionHighlights (snap : CVisibilitySnapshot) (doc : RhDoc) :
    List DrawCall :=
  snap.GetManagedInstanceIds.flatMap (fun instanceId =>
    match alookup doc instanceId with
    | none => []
    | some obj =>
      if !obj.isSelected || !obj.isInstanceRef then []
      else if !obj.hasDef then []
      else highlightLoop snap instanceId obj.children 0 [obj.instanceXform])

mutual

/-- `CVisibilityConduit::AccumulateNestedBBox`: same recursive shape as
`DrawNestedFiltered`, but only CS_SUPPRESSED exact states are skipped —
CS_HIDDEN (and CS_TRANSPARENT) components contribute their bounding boxes
exactly as visible ones do. -/
def accumulateNestedBBox (snap : CVisibilitySnapshot)
    (topLevelId : InstanceId) (comp : RhComponent) (parentXform : List Nat)
    (parentPath : PathStr) (depth : Nat) : List BoxContrib :=
  match comp with
  | .instRef _ _ xf hasDef children =>
    if MAX_NESTING_DEPTH ≤ depth then []
    else if !hasDef then []
    else bboxNestedLoop snap topLevelId children 0 (parentXform ++ [xf])
        parentPath depth
  | _ => []

/-- Body of the `for` loop of `AccumulateNestedBBox`: skip CS_SUPPRESSED
exact states and null or document-hidden objects; recurse into nested blocks
with hidden descendants; otherwise union the component's transformed box. -/
def bboxNestedLoop (snap : CVisibilitySnapshot) (topLevelId : InstanceId)
    (children : List RhComponent) (i : Nat) (combinedXform : List Nat)
    (parentPath : PathStr) (depth : Nat) : List BoxContrib :=
  match children with
  | [] => []
  | child :: rest =>
    (let childPath := buildPath parentPath i
     let state := snap.GetComponentState topLevelId childPath
     if state = CS_SUPPRESSED then []
     else
       match child with
       | .missing => []
       | .geom vis geo => if !vis then [] else [⟨geo, combinedXform⟩]
       | .instRef vis geo _ _ _ =>
         if !vis then []
         else if snap.HasHiddenDescendants topLevelId childPath then
           accumulateNestedBBox snap topLevelId child combinedXform childPath
             (depth + 1)
         else [⟨geo, combinedXform⟩]) ++
    bboxNestedLoop snap topLevelId rest (i + 1) combinedXform parentPath depth

end

/-- The `for` loop of `CVisibilityConduit::CalcVisibleBoundingBox` over one
managed instance's top-level components (paths "0", "1", ...): only
CS_SUPPRESSED exact states are excluded; CS_HIDDEN components still
contribute. -/
def bboxTopLoop (snap : CVisibilitySnapshot) (instanceId : InstanceId)
    (children : List RhComponent) (i : Nat) (instXform : List Nat) :
    List BoxContrib :=
  match children with
  | [] => []
  | child :: rest =>
    (let path := natToChars i
     let state := snap.GetComponentState instanceId path
     if state = CS_SUPPRESSED then []
     else
       match child with
       | .missing => []
       | .geom vis geo => if !vis then [] else [⟨geo, instXform⟩]
       | .instRef vis geo _ _ _ =>
         if !vis then []
         else if snap.HasHiddenDescendants instanceId path then
           accumulateNestedBBox snap instanceId child instXform path 0
         else [⟨geo, instXform⟩]) ++
    bboxTopLoop snap instanceId rest (i + 1) instXform

/-- `CVisibilityConduit::CalcVisibleBoundingBox` (SC_CALCBOUNDINGBOX): for
every managed instance id found in the document as an instance reference with
a definition, the bounding-box contributions of its non-suppressed
components (the per-instance box is the union — here the list — of those
contributions; an empty list is the invalid box, which contributes
nothing). -/
def calcVisibleBoundingBox (snap : CVisibilitySnapshot) (doc : RhDoc) :
    List BoxContrib :=
  snap.GetManagedInstanceIds.flatMap (fun instanceId =>
    match alookup doc instanceId with
    | none => []
    | some obj =>
      if !obj.isInstanceRef then []
      else if !obj.hasDef then []
      else bboxTopLoop snap instanceId obj.children 0 [obj.instanceXform])

/-- Spec-side notion of a strict dot-separated ancestor ("`\"1\"` is an
ancestor of `\"1.0\"` but not of `\"10\"`"): `q` is the initial segment of `p`
that ends immediately before some '.' of `p`. -/
def specAncestor (q p : PathStr) : Prop :=
  ∃ i, p[i]? = some '.' ∧ q = p.take i

/-- A path whose text cannot collide with the persisted format's separators:
it contains no '|', no ':' and no newline.  Every path of the documented
format (dot-joined decimal indices such as "1.0.2") is safe. -/
def SafePath (p : PathStr) : Prop :=
  '|' ∉ p ∧ ':' ∉ p ∧ nlChar ∉ p

/-- State-equivalence of two stores: the same managed instances and, for
every instance and path, the same component state. -/
def StateEquiv (s t : CVisibilityData) : Prop :=
  (∀ i, s.IsManaged i = t.IsManaged i) ∧
  (∀ i p, s.GetState i p = t.GetState i p) ∧
  (∀ i, i ∈ s.GetManagedInstanceIds ↔ i ∈ t.GetManagedInstanceIds)

/-- Well-formedness of one instance's path-state map: unique path keys (as in
`std::unordered_map`) and only non-visible states stored. -/
def InnerWF (m : List (PathStr × ComponentState)) : Prop :=
  (m.map Prod.fst).Nodup ∧ ∀ e ∈ m, e.2 ≠ CS_VISIBLE

/-- The derived-index invariant maintained by `RebuildPrefixes`: for every
instance, `m_prefixes` holds exactly the prefix set recomputed from the
current path-state map, and no entry at all when that map is empty or
absent. -/
def PrefixesExact (s : CVisibilityData) : Prop :=
  ∀ i, alookup s.m_prefixes i =
    match alookup s.m_data i with
    | none => none
    | some m => if m = [] then none else some (prefixSetOf m)

/-- Store well-formedness, maintained by every public mutator starting from
the empty store: unique instance keys, well-formed non-empty inner maps, and
the exact derived prefix index. -/
def StoreWF (s : CVisibilityData) : Prop :=
  (s.m_data.map Prod.fst).Nodup ∧
  (∀ e ∈ s.m_data, InnerWF e.2 ∧ e.2 ≠ []) ∧
  PrefixesExact s

/-- All stored paths of the store are safe for the persisted text format. -/
def StoredSafe (s : CVisibilityData) : Prop :=
  ∀ e ∈ s.m_data, ∀ pe ∈ e.2, SafePath pe.1

/-- A store built from the empty store by a sequence of `SetState` calls. -/
def applySetStates (ops : List (InstanceId × PathStr × ComponentState)) :
    CVisibilityData :=
  ops.foldl (fun s e => s.SetState e.1 e.2.1 e.2.2) emptyStore

/-- Decision taken by the selection-highlight pass for one direct child at
index `i`, stated from the (amended) specification wording: a child whose
exact path has state CS_HIDDEN or CS_SUPPRESSED, a null child, or a
document-hidden child is skipped; a plain object is re-drawn with the
instance transform; a nested assembly is re-drawn whole when it has no hidden
descendants and is skipped entirely (no recursion) when it has some. -/
def highlightChildSpec (snap : CVisibilitySnapshot) (instanceId : InstanceId)
    (instXform : List Nat) (i : Nat) (child : RhComponent) : List DrawCall :=
  if snap.GetComponentState instanceId (natToChars i) = CS_HIDDEN ∨
     snap.GetComponentState instanceId (natToChars i) = CS_SUPPRESSED then []
  else
    match child with
    | .missing => []
    | .geom vis geo => if vis then [⟨geo, instXform⟩] else []
    | .instRef vis geo _ _ _ =>
      if vis ∧ snap.HasHiddenDescendants instanceId (natToChars i) = false
      then [⟨geo, instXform⟩] else []

/-- The selection-highlight pass stated from the (amended) specification
wording, with children enumerated by index. -/
def selectionHighlightSpec (snap : CVisibilitySnapshot) (doc : RhDoc) :
    List DrawCall :=
  snap.GetManagedInstanceIds.flatMap (fun instanceId =>
    match alookup doc instanceId with
    | none => []
    | some obj =>
      if obj.isSelected ∧ obj.isInstanceRef ∧ obj.hasDef then
        (obj.children.enumFrom 0).flatMap (fun ic =>
          highlightChildSpec snap instanceId [obj.instanceXform] ic.1 ic.2)
      else [])

theorem alookup_aupsert_self {α β : Type} [DecidableEq α]
    (l : List (α × β)) (k : α) (v : β) : alookup (aupsert l k v) k = some v := by
  induction l with
  | nil => simp [aupsert, alookup]
  | cons e rest ih =>
    obtain ⟨k2, v2⟩ := e
    by_cases h : k2 = k
    · simp [aupsert, alookup, h]
    · simp [aupsert, alookup, h, ih]

theorem alookup_aupsert_of_ne {α β : Type} [DecidableEq α]
    (l : List (α × β)) (k : α) (v : β) (j : α) (hne : j ≠ k) :
    alookup (aupsert l k v) j = alookup l j := by
  induction l with
  | nil => simp [aupsert, alookup, Ne.symm hne]
  | cons e rest ih =>
    obtain ⟨k2, v2⟩ := e
    by_cases h : k2 = k
    · subst h
      have hkj : ¬(k2 = j) := fun hc => hne hc.symm
      simp [aupsert, alookup, hkj]
    · by_cases h2 : k2 = j
      · subst h2
        simp [aupsert, alookup, h]
      · simp [aupsert, alookup, h, h2, ih]

theorem alookup_aerase_self {α β : Type} [DecidableEq α]
    (l : List (α × β)) (k : α) : alookup (aerase l k) k = none := by
  induction l with
  | nil => simp [aerase, alookup]
  | cons e rest ih =>
    obtain ⟨k2, v2⟩ := e
    by_cases h : k2 = k <;> simp [aerase, alookup, h, ih]

theorem alookup_aerase_of_ne {α β : Type} [DecidableEq α]
    (l : List (α × β)) (k : α) (j : α) (hne : j ≠ k) :
    alookup (aerase l k) j = alookup l j := by
  induction l with
  | nil => simp [aerase]
  | cons e rest ih =>
    obtain ⟨k2, v2⟩ := e
    by_cases h : k2 = k
    · subst h
      have hkj : ¬(k2 = j) := fun hc => hne hc.symm
      simp [aerase, alookup, hkj, ih]
    · by_cases h2 : k2 = j
      · subst h2
        simp [aerase, alookup, h]
      · simp [aerase, alookup, h, h2, ih]

theorem aerase_of_lookup_none {α β : Type} [DecidableEq α]
    (l : List (α × β)) (k : α) (h : alookup l k = none) : aerase l k = l := by
  induction l with
  | nil => simp [aerase]
  | cons e rest ih =>
    obtain ⟨k2, v2⟩ := e
    by_cases hk : k2 = k
    · simp [alookup, hk] at h
    · simp [alookup, hk] at h
      simp [aerase, hk, ih h]

theorem aupsert_of_lookup_some {α β : Type} [DecidableEq α]
    (l : List (α × β)) (k : α) (v : β) (h : alookup l k = some v) :
    aupsert l k v = l := by
  induction l with
  | nil => simp [alookup] at h
  | cons e rest ih =>
    obtain ⟨k2, v2⟩ := e
    by_cases hk : k2 = k
    · simp [alookup, hk] at h
      simp [aupsert, hk, h]
    · simp [alookup, hk] at h
      simp [aupsert, hk, ih h]

theorem aupsert_ne_nil {α β : Type} [DecidableEq α]
    (l : List (α × β)) (k : α) (v : β) : aupsert l k v ≠ [] := by
  cases l with
  | nil => simp [aupsert]
  | cons e rest =>
    obtain ⟨k2, v2⟩ := e
    by_cases h : k2 = k <;> simp [aupsert, h]

theorem mem_of_alookup_eq_some {α β : Type} [DecidableEq α]
    (l : List (α × β)) (k : α) (v : β) (h : alookup l k = some v) :
    (k, v) ∈ l := by
  induction l with
  | nil => simp [alookup] at h
  | cons e rest ih =>
    obtain ⟨k2, v2⟩ := e
    by_cases hk : k2 = k
    · subst hk
      simp [alookup] at h
      simp [h]
    · simp [alookup, hk] at h
      exact List.mem_cons_of_mem _ (ih h)

theorem alookup_eq_some_of_mem {α β : Type} [DecidableEq α]
    (l : List (α × β)) (k : α) (v : β) (hnd : (l.map Prod.fst).Nodup)
    (hmem : (k, v) ∈ l) : alookup l k = some v := by
  induction l with
  | nil => simp at hmem
  | cons e rest ih =>
    obtain ⟨k2, v2⟩ := e
    rw [List.map_cons, List.nodup_cons] at hnd
    obtain ⟨hk2, hnd2⟩ := hnd
    rcases List.mem_cons.mp hmem with heq | hm
    · have h1 : k = k2 := congrArg Prod.fst heq
      have h2 : v = v2 := congrArg Prod.snd heq
      subst h1
      subst h2
      simp [alookup]
    · have hk : k2 ≠ k := by
        intro hkk
        subst hkk
        exact hk2 (by simpa using List.mem_map_of_mem Prod.fst hm)
      simp [alookup, hk]
      exact ih hnd2 hm

theorem mem_aupsert {α β : Type} [DecidableEq α]
    (l : List (α × β)) (k : α) (v : β) (e : α × β) (h : e ∈ aupsert l k v) :
    e = (k, v) ∨ e ∈ l := by
  induction l with
  | nil =>
    rw [show aupsert ([] : List (α × β)) k v = [(k, v)] from rfl] at h
    exact Or.inl (List.mem_singleton.mp h)
  | cons e2 rest ih =>
    obtain ⟨k2, v2⟩ := e2
    by_cases hk : k2 = k
    · have hrw : aupsert ((k2, v2) :: rest) k v = (k2, v) :: rest := by
        simp [aupsert, hk]
      rw [hrw] at h
      rcases List.mem_cons.mp h with h2 | h2
      · exact Or.inl (by rw [h2, hk])
      · exact Or.inr (List.mem_cons_of_mem _ h2)
    · have hrw : aupsert ((k2, v2) :: rest) k v =
          (k2, v2) :: aupsert rest k v := by
        simp [aupsert, hk]
      rw [hrw] at h
      rcases List.mem_cons.mp h with h2 | h2
      · exact Or.inr (by rw [h2]; exact List.mem_cons_self _ _)
      · rcases ih h2 with h3 | h3
        · exact Or.inl h3
        · exact Or.inr (List.mem_cons_of_mem _ h3)

theorem mem_aerase {α β : Type} [DecidableEq α]
    (l : List (α × β)) (k : α) (e : α × β) (h : e ∈ aerase l k) : e ∈ l := by
  induction l with
  | nil => simp [aerase] at h
  | cons e2 rest ih =>
    obtain ⟨k2, v2⟩ := e2
    by_cases hk : k2 = k
    · simp [aerase, hk] at h
      exact List.mem_cons_of_mem _ (ih h)
    · simp only [aerase, hk, if_false, if_neg hk] at h
      rcases List.mem_cons.mp h with h2 | h2
      · simp [h2]
      · exact List.mem_cons_of_mem _ (ih h2)

theorem mem_keys_aupsert {α β : Type} [DecidableEq α]
    (l : List (α × β)) (k : α) (v : β) (j : α)
    (h : j ∈ (aupsert l k v).map Prod.fst) :
    j ∈ l.map Prod.fst ∨ j = k := by
  rcases List.mem_map.mp h with ⟨e, he, hej⟩
  rcases mem_aupsert l k v e he with h2 | h2
  · right
    rw [h2] at hej
    exact hej.symm
  · left
    exact hej ▸ List.mem_map_of_mem Prod.fst h2

theorem nodup_keys_aupsert {α β : Type} [DecidableEq α]
    (l : List (α × β)) (k : α) (v : β) (hnd : (l.map Prod.fst).Nodup) :
    ((aupsert l k v).map Prod.fst).Nodup := by
  induction l with
  | nil => simp [aupsert]
  | cons e rest ih =>
    obtain ⟨k2, v2⟩ := e
    rw [List.map_cons, List.nodup_cons] at hnd
    obtain ⟨hk2, hnd2⟩ := hnd
    by_cases hk : k2 = k
    · have hrw : aupsert ((k2, v2) :: rest) k v = (k2, v) :: rest := by
        simp [aupsert, hk]
      rw [hrw, List.map_cons, List.nodup_cons]
      exact ⟨hk2, hnd2⟩
    · have hrw : aupsert ((k2, v2) :: rest) k v =
          (k2, v2) :: aupsert rest k v := by
        simp [aupsert, hk]
      rw [hrw, List.map_cons, List.nodup_cons]
      refine ⟨?_, ih hnd2⟩
      intro hmem
      rcases mem_keys_aupsert rest k v k2 hmem with h | h
      · exact hk2 h
      · exact hk h

theorem nodup_keys_aerase {α β : Type} [DecidableEq α]
    (l : List (α × β)) (k : α) (hnd : (l.map Prod.fst).Nodup) :
    ((aerase l k).map Prod.fst).Nodup := by
  induction l with
  | nil => simp [aerase]
  | cons e rest ih =>
    obtain ⟨k2, v2⟩ := e
    rw [List.map_cons, List.nodup_cons] at hnd
    obtain ⟨hk2, hnd2⟩ := hnd
    by_cases hk : k2 = k
    · have hrw : aerase ((k2, v2) :: rest) k = aerase rest k := by
        simp [aerase, hk]
      rw [hrw]
      exact ih hnd2
    · have hrw : aerase ((k2, v2) :: rest) k = (k2, v2) :: aerase rest k := by
        simp [aerase, hk]
      rw [hrw, List.map_cons, List.nodup_cons]
      refine ⟨?_, ih hnd2⟩
      intro hmem
      rcases List.mem_map.mp hmem with ⟨e, he, hej⟩
      exact hk2 (hej ▸ List.mem_map_of_mem Prod.fst (mem_aerase rest k e he))

theorem isEmpty_false_of_ne_nil {α : Type} (l : List α) (h : l ≠ []) :
    l.isEmpty = false := by
  cases l with
  | nil => exact absurd rfl h
  | cons a rest => rfl

theorem rebuildPrefixes_m_data (s : CVisibilityData) (instanceId : InstanceId) :
    (s.RebuildPrefixes instanceId).m_data = s.m_data := by
  unfold CVisibilityData.RebuildPrefixes
  cases alookup s.m_data instanceId with
  | none => rfl
  | some m =>
    by_cases hm : m = [] <;> simp [hm]

theorem setState_m_data_nonvisible (s : CVisibilityData) (instanceId : InstanceId)
    (path : PathStr) (st : ComponentState) (hst : st ≠ CS_VISIBLE) :
    (s.SetState instanceId path st).m_data =
      aupsert s.m_data instanceId
        (aupsert ((alookup s.m_data instanceId).getD []) path st) := by
  unfold CVisibilityData.SetState
  rw [if_neg hst]
  exact rebuildPrefixes_m_data _ _

theorem rebuildPrefixes_eq_none (s : CVisibilityData) (instanceId : InstanceId)
    (hd : alookup s.m_data instanceId = none) :
    s.RebuildPrefixes instanceId =
      ⟨s.m_data, aerase s.m_prefixes instanceId⟩ := by
  unfold CVisibilityData.RebuildPrefixes
  rw [hd]

theorem rebuildPrefixes_eq_nil (s : CVisibilityData) (instanceId : InstanceId)
    (hd : alookup s.m_data instanceId = some []) :
    s.RebuildPrefixes instanceId =
      ⟨s.m_data, aerase s.m_prefixes instanceId⟩ := by
  unfold CVisibilityData.RebuildPrefixes
  rw [hd]
  simp

theorem rebuildPrefixes_eq_some (s : CVisibilityData) (instanceId : InstanceId)
    (m : List (PathStr × ComponentState))
    (hd : alookup s.m_data instanceId = some m) (hm : ¬(m = [])) :
    s.RebuildPrefixes instanceId =
      ⟨s.m_data, aupsert s.m_prefixes instanceId (prefixSetOf m)⟩ := by
  unfold CVisibilityData.RebuildPrefixes
  rw [hd]
  simp [hm]

theorem setState_m_prefixes_nonvisible (s : CVisibilityData)
    (instanceId : InstanceId) (path : PathStr) (st : ComponentState)
    (hst : st ≠ CS_VISIBLE) :
    (s.SetState instanceId path st).m_prefixes =
      aupsert s.m_prefixes instanceId
        (prefixSetOf
          (aupsert ((alookup s.m_data instanceId).getD []) path st)) := by
  unfold CVisibilityData.SetState
  rw [if_neg hst]
  rw [rebuildPrefixes_eq_some _ instanceId
    (aupsert ((alookup s.m_data instanceId).getD []) path st)
    (alookup_aupsert_self _ _ _) (aupsert_ne_nil _ _ _)]

theorem getState_setState_nonvisible (s : CVisibilityData)
    (instanceId : InstanceId) (path : PathStr) (st : ComponentState)
    (hst : st ≠ CS_VISIBLE) (i : InstanceId) (q : PathStr) :
    (s.SetState instanceId path st).GetState i q =
      if i = instanceId ∧ q = path then st else s.GetState i q := by
  unfold CVisibilityData.GetState
  rw [setState_m_data_nonvisible s instanceId path st hst]
  by_cases hi : i = instanceId
  · subst hi
    simp only [alookup_aupsert_self]
    by_cases hq : q = path
    · subst hq
      simp only [alookup_aupsert_self]
      simp
    · simp only [alookup_aupsert_of_ne _ _ _ _ hq, hq, and_false, if_false]
      cases h : alookup s.m_data i with
      | none => simp [alookup]
      | some m => simp
  · simp only [alookup_aupsert_of_ne _ _ _ _ hi, hi, false_and, if_false]

theorem isManaged_setState_nonvisible (s : CVisibilityData)
    (instanceId : InstanceId) (path : PathStr) (st : ComponentState)
    (hst : st ≠ CS_VISIBLE) (i : InstanceId) :
    (s.SetState instanceId path st).IsManaged i =
      if i = instanceId then true else s.IsManaged i := by
  unfold CVisibilityData.IsManaged
  rw [setState_m_data_nonvisible s instanceId path st hst]
  by_cases hi : i = instanceId
  · subst hi
    simp only [alookup_aupsert_self]
    simp [isEmpty_false_of_ne_nil _ (aupsert_ne_nil _ _ _)]
  · simp only [alookup_aupsert_of_ne _ _ _ _ hi, hi, if_false]

theorem innerWF_nil : InnerWF [] := by
  constructor
  · simp
  · intro e he
    simp at he

theorem innerWF_aupsert (m : List (PathStr × ComponentState)) (path : PathStr)
    (st : ComponentState) (hst : st ≠ CS_VISIBLE) (hwf : InnerWF m) :
    InnerWF (aupsert m path st) := by
  obtain ⟨hnd, hvals⟩ := hwf
  constructor
  · exact nodup_keys_aupsert _ _ _ hnd
  · intro e he
    rcases mem_aupsert _ _ _ _ he with h | h
    · rw [h]
      exact hst
    · exact hvals e h

theorem innerWF_aerase (m : List (PathStr × ComponentState)) (path : PathStr)
    (hwf : InnerWF m) : InnerWF (aerase m path) := by
  obtain ⟨hnd, hvals⟩ := hwf
  constructor
  · exact nodup_keys_aerase _ _ hnd
  · intro e he
    exact hvals e (mem_aerase _ _ _ he)

theorem innerWF_of_lookup (s : CVisibilityData)
    (hwf : StoreWF s) (instanceId : InstanceId)
    (m : List (PathStr × ComponentState))
    (hd : alookup s.m_data instanceId = some m) : InnerWF m :=
  (hwf.2.1 (instanceId, m) (mem_of_alookup_eq_some _ _ _ hd)).1

theorem prefixesExact_erase_case
    (d : List (InstanceId × List (PathStr × ComponentState)))
    (pfx : List (InstanceId × List PathStr)) (instanceId : InstanceId)
    (hother : ∀ i, i ≠ instanceId → alookup pfx i =
      match alookup d i with
      | none => none
      | some m => if m = [] then none else some (prefixSetOf m))
    (hd : (alookup d instanceId).getD [] = []) :
    PrefixesExact ⟨d, aerase pfx instanceId⟩ := by
  intro i
  show alookup (aerase pfx instanceId) i =
    match alookup d i with
    | none => none
    | some m => if m = [] then none else some (prefixSetOf m)
  by_cases hi : i = instanceId
  · subst hi
    rw [alookup_aerase_self]
    cases h : alookup d i with
    | none => rfl
    | some m =>
      rw [h] at hd
      simp at hd
      simp [hd]
  · rw [alookup_aerase_of_ne _ _ _ hi]
    exact hother i hi

theorem prefixesExact_upsert_case
    (d : List (InstanceId × List (PathStr × ComponentState)))
    (pfx : List (InstanceId × List PathStr)) (instanceId : InstanceId)
    (m : List (PathStr × ComponentState))
    (hother : ∀ i, i ≠ instanceId → alookup pfx i =
      match alookup d i with
      | none => none
      | some m => if m = [] then none else some (prefixSetOf m))
    (hd : alookup d instanceId = some m) (hm : ¬(m = [])) :
    PrefixesExact ⟨d, aupsert pfx instanceId (prefixSetOf m)⟩ := by
  intro i
  show alookup (aupsert pfx instanceId (prefixSetOf m)) i =
    match alookup d i with
    | none => none
    | some m => if m = [] then none else some (prefixSetOf m)
  by_cases hi : i = instanceId
  · subst hi
    rw [alookup_aupsert_self, hd]
    simp [hm]
  · rw [alookup_aupsert_of_ne _ _ _ _ hi]
    exact hother i hi

theorem storeWF_setState (s : CVisibilityData) (instanceId : InstanceId)
    (path : PathStr) (st : ComponentState) (hwf : StoreWF s) :
    StoreWF (s.SetState instanceId path st) := by
  obtain ⟨hnd, hinner, hpfx⟩ := hwf
  by_cases hst : st = CS_VISIBLE
  · subst hst
    unfold CVisibilityData.SetState
    rw [if_pos rfl]
    cases hd : alookup s.m_data instanceId with
    | none =>
      simp only [hd]
      rw [rebuildPrefixes_eq_none ⟨s.m_data, s.m_prefixes⟩ instanceId hd]
      exact ⟨hnd, hinner,
        prefixesExact_erase_case _ _ _ (fun i _ => hpfx i) (by rw [hd]; rfl)⟩
    | some m =>
      simp only [hd]
      by_cases hnil : aerase m path = []
      · rw [if_pos hnil]
        have hlook : alookup (aerase s.m_data instanceId) instanceId = none :=
          alookup_aerase_self _ _
        rw [rebuildPrefixes_eq_none ⟨aerase s.m_data instanceId, s.m_prefixes⟩
          instanceId hlook]
        refine ⟨nodup_keys_aerase _ _ hnd, ?_, ?_⟩
        · intro e he
          exact hinner e (mem_aerase _ _ _ he)
        · refine prefixesExact_erase_case _ _ _ ?_ (by rw [hlook]; rfl)
          intro i hi
          rw [alookup_aerase_of_ne _ _ _ hi]
          exact hpfx i
      · rw [if_neg hnil]
        have hlook : alookup (aupsert s.m_data instanceId (aerase m path))
            instanceId = some (aerase m path) := alookup_aupsert_self _ _ _
        rw [rebuildPrefixes_eq_some
          ⟨aupsert s.m_data instanceId (aerase m path), s.m_prefixes⟩
          instanceId (aerase m path) hlook hnil]
        have hinner2 : InnerWF (aerase m path) :=
          innerWF_aerase m path (innerWF_of_lookup s ⟨hnd, hinner, hpfx⟩ _ m hd)
        refine ⟨nodup_keys_aupsert _ _ _ hnd, ?_, ?_⟩
        · intro e he
          rcases mem_aupsert _ _ _ _ he with h | h
          · rw [h]
            exact ⟨hinner2, hnil⟩
          · exact hinner e h
        · refine prefixesExact_upsert_case _ _ _ _ ?_ hlook hnil
          intro i hi
          rw [alookup_aupsert_of_ne _ _ _ _ hi]
          exact hpfx i
  · have hdata := setState_m_data_nonvisible s instanceId path st hst
    have hpfx2 := setState_m_prefixes_nonvisible s instanceId path st hst
    have hinnerm : InnerWF ((alookup s.m_data instanceId).getD []) := by
      cases hd : alookup s.m_data instanceId with
      | none => exact innerWF_nil
      | some m =>
        exact innerWF_of_lookup s ⟨hnd, hinner, hpfx⟩ _ m hd
    refine ⟨?_, ?_, ?_⟩
    · rw [hdata]
      exact nodup_keys_aupsert _ _ _ hnd
    · rw [hdata]
      intro e he
      rcases mem_aupsert _ _ _ _ he with h | h
      · rw [h]
        exact ⟨innerWF_aupsert _ _ _ hst hinnerm, aupsert_ne_nil _ _ _⟩
      · exact hinner e h
    · intro i
      rw [hpfx2, hdata]
      by_cases hi : i = instanceId
      · subst hi
        rw [alookup_aupsert_self, alookup_aupsert_self]
        simp [aupsert_ne_nil]
      · rw [alookup_aupsert_of_ne _ _ _ _ hi,
          alookup_aupsert_of_ne _ _ _ _ hi]
        exact hpfx i

theorem storeWF_empty : StoreWF emptyStore := by
  refine ⟨by simp [emptyStore], ?_, ?_⟩
  · intro e he
    simp [emptyStore] at he
  · intro i
    simp [emptyStore, alookup]

theorem storeWF_resetInstance (s : CVisibilityData) (instanceId : InstanceId)
    (hwf : StoreWF s) : StoreWF (s.ResetInstance instanceId) := by
  obtain ⟨hnd, hinner, hpfx⟩ := hwf
  refine ⟨nodup_keys_aerase _ _ hnd, ?_, ?_⟩
  · intro e he
    exact hinner e (mem_aerase _ _ _ he)
  · intro i
    show alookup (aerase s.m_prefixes instanceId) i =
      match alookup (aerase s.m_data instanceId) i with
      | none => none
      | some m => if m = [] then none else some (prefixSetOf m)
    by_cases hi : i = instanceId
    · subst hi
      rw [alookup_aerase_self, alookup_aerase_self]
    · rw [alookup_aerase_of_ne _ _ _ hi, alookup_aerase_of_ne _ _ _ hi]
      exact hpfx i

theorem storeWF_clearAll (s : CVisibilityData) : StoreWF s.ClearAll :=
  storeWF_empty

theorem storeWF_foldl {γ : Type} (f : CVisibilityData → γ → CVisibilityData)
    (hf : ∀ s x, StoreWF s → StoreWF (f s x)) (l : List γ)
    (s : CVisibilityData) (hwf : StoreWF s) : StoreWF (l.foldl f s) := by
  induction l generalizing s with
  | nil => exact hwf
  | cons x rest ih => exact ih (f s x) (hf s x hwf)

theorem storeWF_processEntry (instanceId : InstanceId) (s : CVisibilityData)
    (entry : List Char) (hwf : StoreWF s) :
    StoreWF (processEntry instanceId s entry) := by
  unfold processEntry
  cases findCharIdx ':' entry with
  | none => exact hwf
  | some colon =>
    by_cases hr : (0 : Int) ≤ atoiChars (entry.drop (colon + 1)) ∧
        atoiChars (entry.drop (colon + 1)) ≤ 3
    · simp only [hr, if_pos]
      exact storeWF_setState _ _ _ _ hwf
    · simp only [hr, if_neg, if_false]
      exact hwf

theorem storeWF_processLine (s : CVisibilityData) (line : List Char)
    (hwf : StoreWF s) : StoreWF (processLine s line) := by
  unfold processLine
  split
  · exact hwf
  · split
    · exact hwf
    · split
      · exact hwf
      · exact storeWF_foldl _ (fun s2 x h => storeWF_processEntry _ s2 x h)
          _ s hwf

theorem storeWF_deserialize (text : List Char) (s : CVisibilityData)
    (hwf : StoreWF s) : StoreWF (deserializeVisibilityState text s) := by
  unfold deserializeVisibilityState
  exact storeWF_foldl _ (fun s2 x h => storeWF_processLine s2 x h) _ s hwf

theorem storeWF_applyMutation (s : CVisibilityData) (op : Mutation)
    (hwf : StoreWF s) : StoreWF (applyMutation s op) := by
  cases op with
  | setState instanceId path state => exact storeWF_setState _ _ _ _ hwf
  | resetInstance instanceId => exact storeWF_resetInstance _ _ hwf
  | clearAll => exact storeWF_clearAll s
  | deserialize text => exact storeWF_deserialize _ _ hwf

theorem storeWF_applyMutations (s : CVisibilityData) (ops : List Mutation)
    (hwf : StoreWF s) : StoreWF (applyMutations s ops) := by
  unfold applyMutations
  exact storeWF_foldl _ (fun s2 x h => storeWF_applyMutation s2 x h) _ s hwf

theorem storeWF_applySetStates
    (ops : List (InstanceId × PathStr × ComponentState)) :
    StoreWF (applySetStates ops) := by
  unfold applySetStates
  exact storeWF_foldl _ (fun s2 x h => storeWF_setState s2 x.1 x.2.1 x.2.2 h)
    ops emptyStore storeWF_empty

theorem mem_dotPositions (p : List Char) (i : Nat) :
    i ∈ dotPositions p ↔ p[i]? = some '.' := by
  induction p generalizing i with
  | nil => simp [dotPositions]
  | cons c rest ih =>
    cases i with
    | zero =>
      by_cases hc : c = '.'
      · simp [dotPositions, hc]
      · simp [dotPositions, hc, Ne.symm hc]
    | succ j =>
      by_cases hc : c = '.' <;>
        simp [dotPositions, hc, ih j, Nat.succ_ne_zero]

theorem mem_strictAncestors (q p : PathStr) :
    q ∈ strictAncestors p ↔ specAncestor q p := by
  unfold strictAncestors specAncestor
  rw [List.mem_map]
  constructor
  · rintro ⟨i, hi, hq⟩
    rw [List.mem_reverse] at hi
    exact ⟨i, (mem_dotPositions p i).mp hi, hq.symm⟩
  · rintro ⟨i, hi, hq⟩
    exact ⟨i, List.mem_reverse.mpr ((mem_dotPositions p i).mpr hi), hq.symm⟩

theorem mem_prefixSetOf (q : PathStr) (m : List (PathStr × ComponentState)) :
    q ∈ prefixSetOf m ↔ ∃ e ∈ m, q = e.1 ∨ specAncestor q e.1 := by
  unfold prefixSetOf
  rw [List.mem_flatMap]
  constructor
  · rintro ⟨e, he, hq⟩
    rcases List.mem_cons.mp hq with h | h
    · exact ⟨e, he, Or.inl h⟩
    · exact ⟨e, he, Or.inr ((mem_strictAncestors q e.1).mp h)⟩
  · rintro ⟨e, he, hq | hq⟩
    · exact ⟨e, he, List.mem_cons.mpr (Or.inl hq)⟩
    · exact ⟨e, he, List.mem_cons.mpr
        (Or.inr ((mem_strictAncestors q e.1).mpr hq))⟩

/-- C1: after `takeSnapshot()`, any subsequent sequence of store mutations
(setState, resetInstance, clearAll, deserialize) leaves every query result
(IsManaged, GetComponentState, HasHiddenDescendants, GetManagedInstanceIds)
on the already-taken snapshot unchanged: the snapshot captured into the frame
context before the mutations still answers exactly as it did at capture
time. -/
theorem snapshot_isolation (s : CVisibilityData) (ops : List Mutation)
    (i : InstanceId) (p : PathStr) (snap : CVisibilitySnapshot)
    (hmem : snap ∈ (RenderWorld.mutate ⟨s, [s.TakeSnapshot]⟩ ops).snaps) :
    snap.IsManaged i = s.TakeSnapshot.IsManaged i ∧
    snap.GetComponentState i p = s.TakeSnapshot.GetComponentState i p ∧
    snap.HasHiddenDescendants i p = s.TakeSnapshot.HasHiddenDescendants i p ∧
    snap.GetManagedInstanceIds = s.TakeSnapshot.GetManagedInstanceIds := by
  have hsnap : snap = s.TakeSnapshot := by
    simpa [RenderWorld.mutate] using hmem
  subst hsnap
  exact ⟨rfl, rfl, rfl, rfl⟩

/-- Witness for C1 at a concrete store, mutation list and query. -/
theorem snapshot_isolation_witness :
    ((emptyStore.SetState 1 ['0'] CS_HIDDEN).TakeSnapshot ∈
      (RenderWorld.mutate ⟨emptyStore.SetState 1 ['0'] CS_HIDDEN,
        [(emptyStore.SetState 1 ['0'] CS_HIDDEN).TakeSnapshot]⟩
        [Mutation.clearAll]).snaps) ∧
    ((emptyStore.SetState 1 ['0'] CS_HIDDEN).TakeSnapshot.IsManaged 1 =
        (emptyStore.SetState 1 ['0'] CS_HIDDEN).TakeSnapshot.IsManaged 1 ∧
      (emptyStore.SetState 1 ['0'] CS_HIDDEN).TakeSnapshot.GetComponentState
          1 ['0'] =
        (emptyStore.SetState 1 ['0'] CS_HIDDEN).TakeSnapshot.GetComponentState
          1 ['0'] ∧
      (emptyStore.SetState 1 ['0'] CS_HIDDEN).TakeSnapshot.HasHiddenDescendants
          1 ['0'] =
        (emptyStore.SetState 1 ['0']
          CS_HIDDEN).TakeSnapshot.HasHiddenDescendants 1 ['0'] ∧
      (emptyStore.SetState 1 ['0']
          CS_HIDDEN).TakeSnapshot.GetManagedInstanceIds =
        (emptyStore.SetState 1 ['0']
          CS_HIDDEN).TakeSnapshot.GetManagedInstanceIds) :=
  ⟨by simp [RenderWorld.mutate],
   snapshot_isolation _ [Mutation.clearAll] 1 ['0'] _
     (by simp [RenderWorld.mutate])⟩

/-- C2: after `setState(id, "1.0.2", Hidden)` on a store with no entries for
that instance, `hasHiddenDescendants` answers true for "1", "1.0" and
"1.0.2" but false for "10": the prefix query follows path-sequence prefix
semantics (prefixes are cut at '.' boundaries), never raw string prefix. -/
theorem hasHiddenDescendants_prefix_semantics (s : CVisibilityData)
    (i : InstanceId) (h : alookup s.m_data i = none) :
    (s.SetState i ['1', '.', '0', '.', '2'] CS_HIDDEN).HasHiddenDescendants
        i ['1'] = true ∧
    (s.SetState i ['1', '.', '0', '.', '2'] CS_HIDDEN).HasHiddenDescendants
        i ['1', '.', '0'] = true ∧
    (s.SetState i ['1', '.', '0', '.', '2'] CS_HIDDEN).HasHiddenDescendants
        i ['1', '.', '0', '.', '2'] = true ∧
    (s.SetState i ['1', '.', '0', '.', '2'] CS_HIDDEN).HasHiddenDescendants
        i ['1', '0'] = false := by
  have hlook : alookup
      (s.SetState i ['1', '.', '0', '.', '2'] CS_HIDDEN).m_prefixes i =
      some (prefixSetOf [(['1', '.', '0', '.', '2'], CS_HIDDEN)]) := by
    rw [setState_m_prefixes_nonvisible s i _ _ (by decide), h]
    exact alookup_aupsert_self _ _ _
  refine ⟨?_, ?_, ?_, ?_⟩ <;>
    (unfold CVisibilityData.HasHiddenDescendants; rw [hlook]; decide)

/-- Witness for C2 at the empty store. -/
theorem hasHiddenDescendants_prefix_semantics_witness :
    (alookup emptyStore.m_data 0 = none) ∧
    ((emptyStore.SetState 0 ['1', '.', '0', '.', '2']
        CS_HIDDEN).HasHiddenDescendants 0 ['1'] = true ∧
      (emptyStore.SetState 0 ['1', '.', '0', '.', '2']
        CS_HIDDEN).HasHiddenDescendants 0 ['1', '.', '0'] = true ∧
      (emptyStore.SetState 0 ['1', '.', '0', '.', '2']
        CS_HIDDEN).HasHiddenDescendants 0 ['1', '.', '0', '.', '2'] = true ∧
      (emptyStore.SetState 0 ['1', '.', '0', '.', '2']
        CS_HIDDEN).HasHiddenDescendants 0 ['1', '0'] = false) :=
  ⟨rfl, hasHiddenDescendants_prefix_semantics emptyStore 0 rfl⟩

/-- C4: on every store reachable through the public mutations, each
instance's ancestor-prefix set is exactly the union, over all stored paths,
of the path itself and all its strict dot-separated ancestors, and the prefix
entry is absent whenever the instance's path-state mapping is empty. -/
theorem prefixIndex_exact_invariant (ops : List Mutation) (i : InstanceId) :
    ((alookup (applyMutations emptyStore ops).m_data i).getD [] = [] →
      alookup (applyMutations emptyStore ops).m_prefixes i = none) ∧
    (∀ m, alookup (applyMutations emptyStore ops).m_data i = some m →
      ¬(m = []) →
      ∃ ps, alookup (applyMutations emptyStore ops).m_prefixes i = some ps ∧
        ∀ q, q ∈ ps ↔ ∃ e ∈ m, q = e.1 ∨ specAncestor q e.1) := by
  obtain ⟨-, -, hpfx⟩ := storeWF_applyMutations emptyStore ops storeWF_empty
  constructor
  · intro hnil
    have hinv := hpfx i
    cases hd : alookup (applyMutations emptyStore ops).m_data i with
    | none =>
      rw [hd] at hinv
      exact hinv
    | some m =>
      rw [hd] at hnil
      simp at hnil
      rw [hd] at hinv
      simpa [hnil] using hinv
  · intro m hd hm
    have hinv := hpfx i
    rw [hd] at hinv
    refine ⟨prefixSetOf m, by simpa [hm] using hinv,
      fun q => mem_prefixSetOf q m⟩

/-- Witness for C4 after one concrete setState. -/
theorem prefixIndex_exact_invariant_witness :
    (alookup (applyMutations emptyStore
        [Mutation.setState 1 ['1', '.', '0', '.', '2'] CS_HIDDEN]).m_data 1 =
      some [(['1', '.', '0', '.', '2'], CS_HIDDEN)]) ∧
    ¬([(['1', '.', '0', '.', '2'], CS_HIDDEN)] =
      ([] : List (PathStr × ComponentState))) ∧
    (∃ ps, alookup (applyMutations emptyStore
        [Mutation.setState 1 ['1', '.', '0', '.', '2']
          CS_HIDDEN]).m_prefixes 1 = some ps ∧
      ∀ q, q ∈ ps ↔ ∃ e ∈ [(['1', '.', '0', '.', '2'], CS_HIDDEN)],
        q = e.1 ∨ specAncestor q e.1) :=
  ⟨by decide, by decide,
   (prefixIndex_exact_invariant
      [Mutation.setState 1 ['1', '.', '0', '.', '2'] CS_HIDDEN] 1).2
     _ (by decide) (by decide)⟩

theorem setStateVisible_unstored_eq (s : CVisibilityData)
    (instanceId : InstanceId) (path : PathStr) (hwf : StoreWF s)
    (hun : s.GetState instanceId path = CS_VISIBLE) :
    s.SetState instanceId path CS_VISIBLE = s := by
  obtain ⟨hnd, hinner, hpfx⟩ := hwf
  unfold CVisibilityData.SetState
  rw [if_pos rfl]
  cases hd : alookup s.m_data instanceId with
  | none =>
    simp only [hd]
    rw [rebuildPrefixes_eq_none ⟨s.m_data, s.m_prefixes⟩ instanceId hd]
    have hpe : alookup s.m_prefixes instanceId = none := by
      have hinv := hpfx instanceId
      rw [hd] at hinv
      exact hinv
    rw [aerase_of_lookup_none _ _ hpe]
  | some m =>
    simp only [hd]
    have hlookpath : alookup m path = none := by
      cases hlp : alookup m path with
      | none => rfl
      | some st =>
        exfalso
        have hst : st = CS_VISIBLE := by
          unfold CVisibilityData.GetState at hun
          rw [hd] at hun
          simpa [hlp] using hun
        exact (hinner (instanceId, m)
          (mem_of_alookup_eq_some _ _ _ hd)).1.2 (path, st)
          (mem_of_alookup_eq_some _ _ _ hlp) hst
    have hmne : ¬(m = []) :=
      (hinner (instanceId, m) (mem_of_alookup_eq_some _ _ _ hd)).2
    rw [aerase_of_lookup_none _ _ hlookpath, if_neg hmne,
      aupsert_of_lookup_some _ _ _ hd]
    rw [rebuildPrefixes_eq_some ⟨s.m_data, s.m_prefixes⟩ instanceId m hd hmne]
    have hpe : alookup s.m_prefixes instanceId = some (prefixSetOf m) := by
      have hinv := hpfx instanceId
      rw [hd] at hinv
      simpa [hmne] using hinv
    rw [aupsert_of_lookup_some _ _ _ hpe]

theorem isManaged_setStateVisible_last (s : CVisibilityData)
    (instanceId : InstanceId) (path : PathStr)
    (m : List (PathStr × ComponentState))
    (hd : alookup s.m_data instanceId = some m)
    (hlast : aerase m path = []) :
    (s.SetState instanceId path CS_VISIBLE).IsManaged instanceId = false := by
  unfold CVisibilityData.SetState
  rw [if_pos rfl]
  simp only [hd, hlast]
  have hlook : alookup (aerase s.m_data instanceId) instanceId = none :=
    alookup_aerase_self _ _
  show (CVisibilityData.RebuildPrefixes
    ⟨aerase s.m_data instanceId, s.m_prefixes⟩ instanceId).IsManaged
      instanceId = false
  rw [rebuildPrefixes_eq_none ⟨aerase s.m_data instanceId, s.m_prefixes⟩
    instanceId hlook]
  unfold CVisibilityData.IsManaged
  rw [show (⟨aerase s.m_data instanceId,
    aerase s.m_prefixes instanceId⟩ : CVisibilityData).m_data =
    aerase s.m_data instanceId from rfl]
  rw [hlook]

/-- C9: on a well-formed (API-reachable) store, `setState(id, path, Visible)`
for a path that was never set leaves the store unchanged (hence observably
unchanged for every query), and `setState(id, path, Visible)` for the last
remaining non-Visible path of an instance makes `isManaged(id)` false. -/
theorem setVisible_noop_and_last_unmanages (s : CVisibilityData)
    (instanceId : InstanceId) (path : PathStr) (hwf : StoreWF s) :
    (s.GetState instanceId path = CS_VISIBLE →
      s.SetState instanceId path CS_VISIBLE = s) ∧
    (∀ m, alookup s.m_data instanceId = some m → aerase m path = [] →
      (s.SetState instanceId path CS_VISIBLE).IsManaged instanceId = false) :=
  ⟨fun hun => setStateVisible_unstored_eq s instanceId path hwf hun,
   fun m hd hlast => isManaged_setStateVisible_last s instanceId path m hd
     hlast⟩

/-- Witness for C9: a concrete managed store where the unset path "1" is a
no-op and erasing the only stored path "0" unmanages the instance. -/
theorem setVisible_noop_and_last_unmanages_witness :
    ((applySetStates [(1, ['0'], CS_HIDDEN)]).SetState 1 ['1'] CS_VISIBLE =
      applySetStates [(1, ['0'], CS_HIDDEN)]) ∧
    (((applySetStates [(1, ['0'], CS_HIDDEN)]).SetState 1 ['0']
      CS_VISIBLE).IsManaged 1 = false) :=
  ⟨(setVisible_noop_and_last_unmanages _ 1 ['1']
      (storeWF_applySetStates [(1, ['0'], CS_HIDDEN)])).1 (by decide),
   (setVisible_noop_and_last_unmanages _ 1 ['0']
      (storeWF_applySetStates [(1, ['0'], CS_HIDDEN)])).2
     [(['0'], CS_HIDDEN)] (by decide) (by decide)⟩

/-- C10: on every store reachable through the public mutations,
`GetHiddenCount(id)` returns the number of stored non-Visible path entries of
that instance — Transparent and Suppressed entries count exactly like Hidden
ones, since the method returns the full size of the path-state map and the
map stores every non-Visible state — and returns 0 when the instance has no
entries. -/
theorem getHiddenCount_counts_all_nonvisible (ops : List Mutation)
    (i : InstanceId) :
    (applyMutations emptyStore ops).GetHiddenCount i =
      (((alookup (applyMutations emptyStore ops).m_data i).getD []).filter
        (fun e => decide (e.2 ≠ CS_VISIBLE))).length ∧
    (alookup (applyMutations emptyStore ops).m_data i = none →
      (applyMutations emptyStore ops).GetHiddenCount i = 0) := by
  obtain ⟨-, hinner, -⟩ := storeWF_applyMutations emptyStore ops storeWF_empty
  constructor
  · unfold CVisibilityData.GetHiddenCount
    cases hd : alookup (applyMutations emptyStore ops).m_data i with
    | none => simp
    | some m =>
      have hall : ∀ e ∈ m, decide (e.2 ≠ CS_VISIBLE) = true := by
        intro e he
        simpa using (hinner (i, m) (mem_of_alookup_eq_some _ _ _ hd)).1.2 e he
      show m.length =
        (m.filter (fun e => decide (e.2 ≠ CS_VISIBLE))).length
      rw [List.filter_eq_self.mpr hall]
  · intro hd
    unfold CVisibilityData.GetHiddenCount
    rw [hd]

/-- Witness for C10: one Transparent and one Suppressed entry give count 2,
and an untouched instance gives count 0. -/
theorem getHiddenCount_counts_all_nonvisible_witness :
    ((applyMutations emptyStore
        [Mutation.setState 1 ['0'] CS_TRANSPARENT,
         Mutation.setState 1 ['1'] CS_SUPPRESSED]).GetHiddenCount 1 =
      (((alookup (applyMutations emptyStore
          [Mutation.setState 1 ['0'] CS_TRANSPARENT,
           Mutation.setState 1 ['1'] CS_SUPPRESSED]).m_data 1).getD
        []).filter (fun e => decide (e.2 ≠ CS_VISIBLE))).length) ∧
    (alookup (applyMutations emptyStore
        [Mutation.setState 1 ['0'] CS_TRANSPARENT,
         Mutation.setState 1 ['1'] CS_SUPPRESSED]).m_data 2 = none) ∧
    ((applyMutations emptyStore
        [Mutation.setState 1 ['0'] CS_TRANSPARENT,
         Mutation.setState 1 ['1'] CS_SUPPRESSED]).GetHiddenCount 2 = 0) :=
  ⟨(getHiddenCount_counts_all_nonvisible
      [Mutation.setState 1 ['0'] CS_TRANSPARENT,
       Mutation.setState 1 ['1'] CS_SUPPRESSED] 1).1,
   by decide,
   (getHiddenCount_counts_all_nonvisible
      [Mutation.setState 1 ['0'] CS_TRANSPARENT,
       Mutation.setState 1 ['1'] CS_SUPPRESSED] 2).2 (by decide)⟩

/-- C8: deserialize works line by line and is total (the model is a pure
function, so no error is ever raised); a line with no '|' separator, a line
whose leading field is not a parseable instance id, a field with no ':'
separator, and a field whose state ordinal falls outside [0,3] are each
skipped, leaving the store exactly as it was, and a skipped line does not
affect the processing of the other lines of the same input. -/
theorem deserialize_skips_malformed (s : CVisibilityData)
    (line entry : List Char) (instanceId : InstanceId)
    (pre post : List (List Char)) :
    (findCharIdx '|' line = none → processLine s line = s) ∧
    (∀ firstPipe, findCharIdx '|' line = some firstPipe →
      charsToNat? (line.take firstPipe) = none → processLine s line = s) ∧
    (findCharIdx ':' entry = none → processEntry instanceId s entry = s) ∧
    (∀ colon, findCharIdx ':' entry = some colon →
      ¬((0 : Int) ≤ atoiChars (entry.drop (colon + 1)) ∧
        atoiChars (entry.drop (colon + 1)) ≤ 3) →
      processEntry instanceId s entry = s) ∧
    ((findCharIdx '|' line = none ∨
      (∀ firstPipe, findCharIdx '|' line = some firstPipe →
        charsToNat? (line.take firstPipe) = none)) →
      (pre ++ line :: post).foldl processLine s =
        (pre ++ post).foldl processLine s) := by
  have hA : ∀ t : CVisibilityData, findCharIdx '|' line = none →
      processLine t line = t := by
    intro t h
    unfold processLine
    by_cases he : line.isEmpty <;> simp [he, h]
  have hB : ∀ (t : CVisibilityData) firstPipe,
      findCharIdx '|' line = some firstPipe →
      charsToNat? (line.take firstPipe) = none → processLine t line = t := by
    intro t fp h1 h2
    unfold processLine
    by_cases he : line.isEmpty <;> simp [he, h1, h2]
  refine ⟨hA s, hB s, ?_, ?_, ?_⟩
  · intro h
    unfold processEntry
    simp [h]
  · intro colon h1 h2
    unfold processEntry
    simp [h1, h2]
  · intro h
    rw [List.foldl_append, List.foldl_append, List.foldl_cons]
    rcases h with h | h
    · rw [hA _ h]
    · cases hfp : findCharIdx '|' line with
      | none => rw [hA _ hfp]
      | some firstPipe => rw [hB _ firstPipe hfp (h firstPipe hfp)]

/-- Witness for C8 on the spec's own scenario line "not-a-uuid|0:1", a field
with no colon, a field with ordinal 7, and a valid neighbouring line. -/
theorem deserialize_skips_malformed_witness :
    (processLine emptyStore
      ['n', 'o', 't', '-', 'a', '-', 'u', 'u', 'i', 'd', '|', '0', ':', '1'] =
      emptyStore) ∧
    (processEntry 1 emptyStore ['0', '1'] = emptyStore) ∧
    (processEntry 1 emptyStore ['0', ':', '7'] = emptyStore) ∧
    (([['n', 'o', 't', '-', 'a', '-', 'u', 'u', 'i', 'd', '|', '0', ':', '1'],
        ['5', '|', '0', ':', '1']].foldl processLine emptyStore) =
      ([['5', '|', '0', ':', '1']].foldl processLine emptyStore)) :=
  ⟨(deserialize_skips_malformed emptyStore
      ['n', 'o', 't', '-', 'a', '-', 'u', 'u', 'i', 'd', '|', '0', ':', '1']
      [] 1 [] []).2.1 10 (by decide) (by decide),
   (deserialize_skips_malformed emptyStore [] ['0', '1'] 1 [] []).2.2.1
     (by decide),
   (deserialize_skips_malformed emptyStore [] ['0', ':', '7'] 1 [] []).2.2.2.1
     1 (by decide) (by decide),
   (deserialize_skips_malformed emptyStore
      ['n', 'o', 't', '-', 'a', '-', 'u', 'u', 'i', 'd', '|', '0', ':', '1']
      [] 1 [] [['5', '|', '0', ':', '1']]).2.2.2.2
     (Or.inr (by decide))⟩

theorem toNat_ofNat_digit (k : Nat) (hk : k < 10) :
    (Char.ofNat (48 + k)).toNat = 48 + k := by
  unfold Char.ofNat
  split
  · rfl
  · rename_i hv
    exfalso
    apply hv
    constructor
    omega

theorem natToCharsAux_fuel (f1 : Nat) : ∀ f2 n, n < f1 → n < f2 →
    natToCharsAux f1 n = natToCharsAux f2 n := by
  induction f1 with
  | zero =>
    intro f2 n h1
    omega
  | succ f ih =>
    intro f2 n h1 h2
    cases f2 with
    | zero => omega
    | succ f2p =>
      by_cases h : n < 10
      · simp [natToCharsAux, h]
      · have hdiv : n / 10 < n := Nat.div_lt_self (by omega) (by omega)
        simp only [natToCharsAux, h, if_neg, if_false]
        rw [ih f2p (n / 10) (by omega) (by omega)]

theorem natToChars_eq (n : Nat) : natToChars n =
    if n < 10 then [Char.ofNat (48 + n)]
    else natToChars (n / 10) ++ [Char.ofNat (48 + n % 10)] := by
  show natToCharsAux (n + 1) n = _
  by_cases h : n < 10
  · simp [natToCharsAux, h]
  · have hdiv : n / 10 < n := Nat.div_lt_self (by omega) (by omega)
    simp only [natToCharsAux, h, if_neg, if_false]
    rw [natToCharsAux_fuel n (n / 10 + 1) (n / 10) (by omega) (by omega)]
    rfl

theorem natToChars_ne_nil (n : Nat) : natToChars n ≠ [] := by
  rw [natToChars_eq]
  split <;> simp

theorem natToChars_digits (n : Nat) :
    ∀ c ∈ natToChars n, isDigitChar c = true := by
  induction n using Nat.strong_induction_on with
  | _ n ih =>
    intro c hc
    rw [natToChars_eq] at hc
    by_cases h : n < 10
    · rw [if_pos h] at hc
      rcases List.mem_singleton.mp hc with rfl
      unfold isDigitChar
      rw [toNat_ofNat_digit n h]
      simp
      omega
    · rw [if_neg h] at hc
      rcases List.mem_append.mp hc with h2 | h2
      · exact ih (n / 10) (Nat.div_lt_self (by omega) (by omega)) c h2
      · rcases List.mem_singleton.mp h2 with rfl
        unfold isDigitChar
        rw [toNat_ofNat_digit (n % 10) (Nat.mod_lt n (by omega))]
        simp
        omega

theorem parseDigitsAux_append (acc : Nat) (xs ys : List Char) :
    parseDigitsAux acc (xs ++ ys) =
      match parseDigitsAux acc xs with
      | none => none
      | some a => parseDigitsAux a ys := by
  induction xs generalizing acc with
  | nil => simp [parseDigitsAux]
  | cons c rest ih =>
    by_cases hc : isDigitChar c = true <;>
      simp [parseDigitsAux, hc, ih]

theorem parseDigitsAux_natToChars (n : Nat) :
    ∀ acc, parseDigitsAux acc (natToChars n) =
      some (acc * 10 ^ (natToChars n).length + n) := by
  induction n using Nat.strong_induction_on with
  | _ n ih =>
    intro acc
    rw [natToChars_eq]
    by_cases h : n < 10
    · rw [if_pos h]
      have hdig : isDigitChar (Char.ofNat (48 + n)) = true := by
        unfold isDigitChar
        rw [toNat_ofNat_digit n h]
        simp
        omega
      simp [parseDigitsAux, hdig, toNat_ofNat_digit n h]
    · rw [if_neg h]
      rw [parseDigitsAux_append]
      rw [ih (n / 10) (Nat.div_lt_self (by omega) (by omega)) acc]
      have hdig : isDigitChar (Char.ofNat (48 + n % 10)) = true := by
        unfold isDigitChar
        rw [toNat_ofNat_digit (n % 10) (Nat.mod_lt n (by omega))]
        simp
        omega
      simp only [parseDigitsAux, hdig, if_pos,
        toNat_ofNat_digit (n % 10) (Nat.mod_lt n (by omega))]
      congr 1
      have hlen : (natToChars (n / 10) ++
          [Char.ofNat (48 + n % 10)]).length =
          (natToChars (n / 10)).length + 1 := by simp
      rw [hlen]
      have : (acc * 10 ^ (natToChars (n / 10)).length + n / 10) * 10 +
          (48 + n % 10 - 48) =
          acc * 10 ^ ((natToChars (n / 10)).length + 1) +
            (n / 10 * 10 + n % 10) := by ring_nf; omega
      rw [this]
      congr 1
      omega

theorem charsToNat_natToChars (n : Nat) :
    charsToNat? (natToChars n) = some n := by
  unfold charsToNat?
  rw [if_neg (by simp [isEmpty_false_of_ne_nil _ (natToChars_ne_nil n)])]
  rw [parseDigitsAux_natToChars n 0]
  simp

theorem atoi_ord (st : ComponentState) :
    atoiChars (natToChars st.ord) = (st.ord : Int) := by
  cases st <;> decide

theorem ord_range (st : ComponentState) :
    (0 : Int) ≤ (st.ord : Int) ∧ (st.ord : Int) ≤ 3 := by
  cases st <;> decide

theorem ofOrd_ord (st : ComponentState) :
    ComponentState.ofOrd ((st.ord : Int)).toNat = st := by
  cases st <;> decide

theorem findCharIdx_none_of_not_mem (ch : Char) (xs : List Char)
    (h : ch ∉ xs) : findCharIdx ch xs = none := by
  induction xs with
  | nil => rfl
  | cons c rest ih =>
    simp at h
    simp [findCharIdx, Ne.symm h.1, ih h.2]

theorem findCharIdx_append (ch : Char) (xs ys : List Char) (h : ch ∉ xs) :
    findCharIdx ch (xs ++ ch :: ys) = some xs.length := by
  induction xs with
  | nil => simp [findCharIdx]
  | cons c rest ih =>
    simp at h
    simp [findCharIdx, Ne.symm h.1, ih h.2]

theorem take_len_append (xs ys : List Char) :
    (xs ++ ys).take xs.length = xs := by
  induction xs with
  | nil => rfl
  | cons c rest ih => simp [ih]

theorem drop_len_succ_append (xs : List Char) (c : Char) (ys : List Char) :
    (xs ++ c :: ys).drop (xs.length + 1) = ys := by
  induction xs with
  | nil => rfl
  | cons c2 rest ih => simp [ih]

theorem splitOnChar_of_not_mem (sep : Char) (xs : List Char)
    (h : sep ∉ xs) : splitOnChar sep xs = [xs] := by
  induction xs with
  | nil => rfl
  | cons c rest ih =>
    simp at h
    simp [splitOnChar, Ne.symm h.1, ih h.2]

theorem splitOnChar_append (sep : Char) (xs ys : List Char) (h : sep ∉ xs) :
    splitOnChar sep (xs ++ sep :: ys) = xs :: splitOnChar sep ys := by
  induction xs with
  | nil => simp [splitOnChar]
  | cons c rest ih =>
    simp at h
    simp only [List.cons_append, splitOnChar, Ne.symm h.1, if_false]
    rw [show rest.append (sep :: ys) = rest ++ sep :: ys from rfl, ih h.2]

theorem not_digit_pipe : isDigitChar '|' = false := by decide

theorem not_digit_colon : isDigitChar ':' = false := by decide

theorem not_digit_nl : isDigitChar nlChar = false := by decide

theorem pipe_not_mem_natToChars (n : Nat) : '|' ∉ natToChars n := by
  intro h
  have := natToChars_digits n '|' h
  rw [not_digit_pipe] at this
  exact Bool.false_ne_true this

theorem colon_not_mem_natToChars (n : Nat) : ':' ∉ natToChars n := by
  intro h
  have := natToChars_digits n ':' h
  rw [not_digit_colon] at this
  exact Bool.false_ne_true this

theorem nl_not_mem_natToChars (n : Nat) : nlChar ∉ natToChars n := by
  intro h
  have := natToChars_digits n nlChar h
  rw [not_digit_nl] at this
  exact Bool.false_ne_true this

/-- The `<path>:<state>` body of one serialized field (without the leading
'|'). -/
def bodyChars (e : PathStr × ComponentState) : List Char :=
  e.1 ++ ':' :: natToChars e.2.ord

theorem entryChars_eq (e : PathStr × ComponentState) :
    entryChars e = '|' :: bodyChars e := rfl

theorem pipe_not_mem_bodyChars (e : PathStr × ComponentState)
    (hsafe : SafePath e.1) : '|' ∉ bodyChars e := by
  unfold bodyChars
  intro h
  rcases List.mem_append.mp h with h2 | h2
  · exact hsafe.1 h2
  · rcases List.mem_cons.mp h2 with h3 | h3
    · exact absurd h3 (by decide)
    · exact pipe_not_mem_natToChars _ h3

theorem nl_not_mem_bodyChars (e : PathStr × ComponentState)
    (hsafe : SafePath e.1) : nlChar ∉ bodyChars e := by
  unfold bodyChars
  intro h
  rcases List.mem_append.mp h with h2 | h2
  · exact hsafe.2.2 h2
  · rcases List.mem_cons.mp h2 with h3 | h3
    · exact absurd h3 (by decide)
    · exact nl_not_mem_natToChars _ h3

/-- Serialized line for one instance: the decimal id followed by all
`|path:state` fields. -/
def lineChars (instanceId : InstanceId)
    (m : List (PathStr × ComponentState)) : List Char :=
  natToChars instanceId ++ m.flatMap entryChars

theorem nl_not_mem_lineChars (instanceId : InstanceId)
    (m : List (PathStr × ComponentState))
    (hsafe : ∀ e ∈ m, SafePath e.1) : nlChar ∉ lineChars instanceId m := by
  unfold lineChars
  intro h
  rcases List.mem_append.mp h with h2 | h2
  · exact nl_not_mem_natToChars _ h2
  · rcases List.mem_flatMap.mp h2 with ⟨e, he, hmem⟩
    rw [entryChars_eq] at hmem
    rcases List.mem_cons.mp hmem with h3 | h3
    · exact absurd h3 (by decide)
    · exact nl_not_mem_bodyChars e (hsafe e he) h3

theorem processEntry_bodyChars (instanceId : InstanceId)
    (t : CVisibilityData) (e : PathStr × ComponentState)
    (hsafe : SafePath e.1) :
    processEntry instanceId t (bodyChars e) =
      t.SetState instanceId e.1 e.2 := by
  unfold processEntry
  rw [show bodyChars e = e.1 ++ ':' :: natToChars e.2.ord from rfl,
    findCharIdx_append ':' e.1 (natToChars e.2.ord) hsafe.2.1]
  simp only [take_len_append, drop_len_succ_append, atoi_ord, ofOrd_ord]
  rw [if_pos (ord_range e.2)]

theorem foldl_fields (instanceId : InstanceId) (e : PathStr × ComponentState)
    (ms : List (PathStr × ComponentState)) (t : CVisibilityData)
    (hsafe : ∀ x ∈ e :: ms, SafePath x.1) :
    (splitOnChar '|' (bodyChars e ++ ms.flatMap entryChars)).foldl
      (processEntry instanceId) t =
    (e :: ms).foldl (fun t2 x => t2.SetState instanceId x.1 x.2) t := by
  induction ms generalizing e t with
  | nil =>
    simp only [List.flatMap_nil, List.append_nil]
    rw [splitOnChar_of_not_mem '|' _
      (pipe_not_mem_bodyChars e (hsafe e (by simp)))]
    simp [processEntry_bodyChars instanceId t e (hsafe e (by simp))]
  | cons e2 rest ih =>
    have hshape : bodyChars e ++ (e2 :: rest).flatMap entryChars =
        bodyChars e ++ '|' :: (bodyChars e2 ++ rest.flatMap entryChars) := by
      simp [entryChars_eq]
    rw [hshape, splitOnChar_append '|' _ _
      (pipe_not_mem_bodyChars e (hsafe e (by simp)))]
    rw [List.foldl_cons,
      processEntry_bodyChars instanceId t e (hsafe e (by simp))]
    rw [ih e2 _ (fun x hx => hsafe x (by
      rcases List.mem_cons.mp hx with h | h
      · simp [h]
      · simp [h]))]
    rfl

theorem processLine_nil (t : CVisibilityData) : processLine t [] = t := rfl

theorem processLine_lineChars (instanceId : InstanceId)
    (m : List (PathStr × ComponentState)) (t : CVisibilityData)
    (hsafe : ∀ e ∈ m, SafePath e.1) (hm : m ≠ []) :
    processLine t (lineChars instanceId m) =
      m.foldl (fun t2 e => t2.SetState instanceId e.1 e.2) t := by
  obtain ⟨e, ms, rfl⟩ : ∃ e ms, m = e :: ms := by
    cases m with
    | nil => exact absurd rfl hm
    | cons e ms => exact ⟨e, ms, rfl⟩
  unfold processLine lineChars
  have hshape : natToChars instanceId ++ (e :: ms).flatMap entryChars =
      natToChars instanceId ++ '|' ::
        (bodyChars e ++ ms.flatMap entryChars) := by
    simp [entryChars_eq]
  rw [hshape]
  have hne : natToChars instanceId ++ '|' ::
      (bodyChars e ++ ms.flatMap entryChars) ≠ [] := by
    simp
  rw [isEmpty_false_of_ne_nil _ hne]
  simp only [Bool.false_eq_true, if_false]
  rw [findCharIdx_append '|' _ _ (pipe_not_mem_natToChars instanceId)]
  simp only [take_len_append, charsToNat_natToChars, drop_len_succ_append]
  exact foldl_fields instanceId e ms t hsafe

theorem alookup_none_of_not_mem_keys {α β : Type} [DecidableEq α]
    (l : List (α × β)) (k : α) (h : k ∉ l.map Prod.fst) :
    alookup l k = none := by
  cases hl : alookup l k with
  | none => rfl
  | some v =>
    exact absurd
      (List.mem_map_of_mem Prod.fst (mem_of_alookup_eq_some _ _ _ hl)) h

theorem alookup_snapshotData (pfx : List (InstanceId × List PathStr))
    (d : List (InstanceId × List (PathStr × ComponentState)))
    (hnd : (d.map Prod.fst).Nodup) (i : InstanceId) :
    alookup (d.filterMap (fun pr =>
      if pr.2.isEmpty then none
      else some (pr.1, (⟨pr.2, (alookup pfx pr.1).getD []⟩ :
        CVisibilitySnapshot.InstanceData)))) i =
      match alookup d i with
      | none => none
      | some m => if m.isEmpty then none
          else some ⟨m, (alookup pfx i).getD []⟩ := by
  induction d with
  | nil => rfl
  | cons pr rest ih =>
    obtain ⟨k, v⟩ := pr
    rw [List.map_cons, List.nodup_cons] at hnd
    obtain ⟨hk, hnd2⟩ := hnd
    by_cases hv : v.isEmpty
    · rw [List.filterMap_cons_none (by simp [hv])]
      rw [ih hnd2]
      by_cases hi : k = i
      · subst hi
        have hrest : alookup rest k = none :=
          alookup_none_of_not_mem_keys rest k hk
        rw [hrest]
        rw [show alookup ((k, v) :: rest) k = some v from by
          simp [alookup]]
        simp [hv]
      · rw [show alookup ((k, v) :: rest) i = alookup rest i from by
          simp [alookup, hi]]
    · have hsome : (fun pr : InstanceId × List (PathStr × ComponentState) =>
          if pr.2.isEmpty then none
          else some (pr.1, (⟨pr.2, (alookup pfx pr.1).getD []⟩ :
            CVisibilitySnapshot.InstanceData))) (k, v) =
          some (k, (⟨v, (alookup pfx k).getD []⟩ :
            CVisibilitySnapshot.InstanceData)) := by
        simp [hv]
      rw [@List.filterMap_cons_some
        (InstanceId × List (PathStr × ComponentState))
        (InstanceId × CVisibilitySnapshot.InstanceData)
        (fun pr => if pr.2.isEmpty then none
          else some (pr.1, (⟨pr.2, (alookup pfx pr.1).getD []⟩ :
            CVisibilitySnapshot.InstanceData)))
        (k, v) rest
        (k, (⟨v, (alookup pfx k).getD []⟩ :
          CVisibilitySnapshot.InstanceData)) hsome]
      by_cases hi : k = i
      · subst hi
        rw [show alookup ((k, (⟨v, (alookup pfx k).getD []⟩ :
            CVisibilitySnapshot.InstanceData)) ::
            rest.filterMap (fun pr =>
              if pr.2.isEmpty then none
              else some (pr.1, (⟨pr.2, (alookup pfx pr.1).getD []⟩ :
                CVisibilitySnapshot.InstanceData)))) k =
            some ⟨v, (alookup pfx k).getD []⟩ from by simp [alookup]]
        rw [show alookup ((k, v) :: rest) k = some v from by simp [alookup]]
        simp [hv]
      · rw [show alookup ((k, (⟨v, (alookup pfx k).getD []⟩ :
            CVisibilitySnapshot.InstanceData)) ::
            rest.filterMap (fun pr =>
              if pr.2.isEmpty then none
              else some (pr.1, (⟨pr.2, (alookup pfx pr.1).getD []⟩ :
                CVisibilitySnapshot.InstanceData)))) i =
            alookup (rest.filterMap (fun pr =>
              if pr.2.isEmpty then none
              else some (pr.1, (⟨pr.2, (alookup pfx pr.1).getD []⟩ :
                CVisibilitySnapshot.InstanceData)))) i from by
          simp [alookup, hi]]
        rw [ih hnd2]
        rw [show alookup ((k, v) :: rest) i = alookup rest i from by
          simp [alookup, hi]]

theorem alookup_takeSnapshot (s : CVisibilityData)
    (hnd : (s.m_data.map Prod.fst).Nodup) (i : InstanceId) :
    alookup s.TakeSnapshot.m_data i =
      match alookup s.m_data i with
      | none => none
      | some m => if m.isEmpty then none
          else some ⟨m, (alookup s.m_prefixes i).getD []⟩ :=
  alookup_snapshotData s.m_prefixes s.m_data hnd i

theorem managedIds_eq_keys (s : CVisibilityData)
    (hne : ∀ e ∈ s.m_data, e.2 ≠ []) :
    s.GetManagedInstanceIds = s.m_data.map Prod.fst := by
  unfold CVisibilityData.GetManagedInstanceIds
  have hgen : ∀ (d : List (InstanceId × List (PathStr × ComponentState))),
      (∀ e ∈ d, e.2 ≠ []) →
      d.filterMap (fun pr => if pr.2.isEmpty then none else some pr.1) =
        d.map Prod.fst := by
    intro d
    induction d with
    | nil => intro _; rfl
    | cons e rest ih =>
      intro h
      have hsome : (fun pr : InstanceId × List (PathStr × ComponentState) =>
          if pr.2.isEmpty then none else some pr.1) e = some e.1 := by
        simp [isEmpty_false_of_ne_nil _ (h e (by simp))]
      rw [@List.filterMap_cons_some
        (InstanceId × List (PathStr × ComponentState)) InstanceId
        (fun pr => if pr.2.isEmpty then none else some pr.1)
        e rest e.1 hsome]
      rw [ih (fun x hx => h x (by simp [hx]))]
      rfl
  exact hgen s.m_data hne

theorem flatMap_congr_mem {γ δ : Type} (l : List γ) (f g : γ → List δ)
    (h : ∀ x ∈ l, f x = g x) : l.flatMap f = l.flatMap g := by
  induction l with
  | nil => rfl
  | cons x rest ih =>
    simp only [List.flatMap_cons]
    rw [h x (by simp), ih (fun y hy => h y (by simp [hy]))]

theorem flatMap_map_general {γ δ ε : Type} (l : List γ) (f : γ → δ)
    (g : δ → List ε) : (l.map f).flatMap g = l.flatMap (fun x => g (f x)) := by
  induction l with
  | nil => rfl
  | cons x rest ih =>
    simp only [List.map_cons, List.flatMap_cons, ih]

theorem serialize_foldl (s : CVisibilityData) (ids : List InstanceId)
    (acc : List Char) :
    ids.foldl (fun acc2 instanceId =>
      match alookup s.TakeSnapshot.m_data instanceId with
      | none => acc2
      | some inst =>
        if inst.states.isEmpty then acc2
        else acc2 ++ (natToChars instanceId ++ inst.states.flatMap entryChars)
            ++ [nlChar]) acc =
    acc ++ ids.flatMap (fun instanceId =>
      match alookup s.TakeSnapshot.m_data instanceId with
      | none => []
      | some inst =>
        if inst.states.isEmpty then []
        else (natToChars instanceId ++ inst.states.flatMap entryChars)
            ++ [nlChar]) := by
  induction ids generalizing acc with
  | nil => simp
  | cons instanceId rest ih =>
    simp only [List.foldl_cons, List.flatMap_cons]
    cases h : alookup s.TakeSnapshot.m_data instanceId with
    | none =>
      rw [ih]
      simp
    | some inst =>
      by_cases he : inst.states.isEmpty
      · simp only [he, if_pos]
        rw [ih]
        simp
      · simp only [he, Bool.false_eq_true, if_false]
        rw [ih]
        simp

theorem serialize_eq (s : CVisibilityData) (hwf : StoreWF s) :
    serializeVisibilityState s =
      s.m_data.flatMap (fun d => lineChars d.1 d.2 ++ [nlChar]) := by
  obtain ⟨hnd, hinner, -⟩ := hwf
  unfold serializeVisibilityState
  rw [serialize_foldl, List.nil_append]
  rw [managedIds_eq_keys s (fun e he => (hinner e he).2)]
  rw [flatMap_map_general]
  apply flatMap_congr_mem
  intro e he
  rw [alookup_takeSnapshot s hnd e.1]
  rw [alookup_eq_some_of_mem s.m_data e.1 e.2 hnd (by
    rw [show (e.1, e.2) = e from rfl]
    exact he)]
  simp [isEmpty_false_of_ne_nil _ (hinner e he).2, lineChars]

theorem splitOnChar_joined (lines : List (List Char))
    (h : ∀ l ∈ lines, nlChar ∉ l) :
    splitOnChar nlChar (lines.flatMap (fun l => l ++ [nlChar])) =
      lines ++ [[]] := by
  induction lines with
  | nil => rfl
  | cons l rest ih =>
    rw [List.flatMap_cons]
    rw [show (l ++ [nlChar]) ++ rest.flatMap (fun l2 => l2 ++ [nlChar]) =
      l ++ nlChar :: rest.flatMap (fun l2 => l2 ++ [nlChar]) from by simp]
    rw [splitOnChar_append nlChar _ _ (h l (by simp))]
    rw [ih (fun l2 hl2 => h l2 (by simp [hl2]))]
    rfl

theorem deserialize_serialize (s : CVisibilityData) (hwf : StoreWF s)
    (hsafe : StoredSafe s) :
    deserializeVisibilityState (serializeVisibilityState s) emptyStore =
      s.m_data.foldl (fun t d =>
        d.2.foldl (fun t2 e => t2.SetState d.1 e.1 e.2) t) emptyStore := by
  unfold deserializeVisibilityState
  rw [serialize_eq s hwf]
  rw [show s.m_data.flatMap (fun d => lineChars d.1 d.2 ++ [nlChar]) =
    (s.m_data.map (fun d => lineChars d.1 d.2)).flatMap
      (fun l => l ++ [nlChar]) from by rw [flatMap_map_general]]
  rw [splitOnChar_joined _ (by
    intro l hl
    rcases List.mem_map.mp hl with ⟨d, hd, rfl⟩
    exact nl_not_mem_lineChars d.1 d.2 (fun e he => hsafe d hd e he))]
  rw [List.foldl_append]
  rw [show List.foldl processLine
      ((s.m_data.map (fun d => lineChars d.1 d.2)).foldl processLine
        emptyStore) [[]] =
    (s.m_data.map (fun d => lineChars d.1 d.2)).foldl processLine
      emptyStore from by
    rw [List.foldl_cons, processLine_nil]
    rfl]
  have hgen : ∀ (d : List (InstanceId × List (PathStr × ComponentState)))
      (t : CVisibilityData),
      (∀ e ∈ d, (∀ pe ∈ e.2, SafePath pe.1) ∧ e.2 ≠ []) →
      (d.map (fun x => lineChars x.1 x.2)).foldl processLine t =
        d.foldl (fun t2 x =>
          x.2.foldl (fun t3 pe => t3.SetState x.1 pe.1 pe.2) t2) t := by
    intro d
    induction d with
    | nil => intro t _; rfl
    | cons x rest ih =>
      intro t h
      rw [List.map_cons, List.foldl_cons, List.foldl_cons]
      rw [processLine_lineChars x.1 x.2 t (h x (by simp)).1 (h x (by simp)).2]
      exact ih _ (fun y hy => h y (by simp [hy]))
  apply hgen
  intro e he
  obtain ⟨-, hinner, -⟩ := hwf
  exact ⟨fun pe hpe => hsafe e he pe hpe, (hinner e he).2⟩

theorem getState_innerFold (instanceId : InstanceId)
    (m : List (PathStr × ComponentState)) (t : CVisibilityData)
    (hnv : ∀ e ∈ m, e.2 ≠ CS_VISIBLE) (hnd : (m.map Prod.fst).Nodup)
    (i : InstanceId) (q : PathStr) :
    (m.foldl (fun t2 e => t2.SetState instanceId e.1 e.2) t).GetState i q =
      if i = instanceId then
        match alookup m q with
        | some st => st
        | none => t.GetState i q
      else t.GetState i q := by
  induction m generalizing t with
  | nil => simp [alookup]
  | cons e rest ih =>
    rw [List.map_cons, List.nodup_cons] at hnd
    obtain ⟨hk, hnd2⟩ := hnd
    rw [List.foldl_cons]
    rw [ih _ (fun x hx => hnv x (by simp [hx])) hnd2]
    by_cases hi : i = instanceId
    · subst hi
      simp only [if_pos rfl]
      by_cases hq : e.1 = q
      · have hrest : alookup rest q = none :=
          alookup_none_of_not_mem_keys rest q (by rw [← hq]; exact hk)
        rw [hrest]
        rw [show alookup (e :: rest) q = some e.2 from by
          obtain ⟨p1, st1⟩ := e
          simp [alookup]
          simp at hq
          simp [hq]]
        rw [getState_setState_nonvisible t i e.1 e.2 (hnv e (by simp)) i q]
        simp [hq]
      · rw [show alookup (e :: rest) q = alookup rest q from by
          obtain ⟨p1, st1⟩ := e
          simp at hq
          simp [alookup, hq]]
        cases hr : alookup rest q with
        | some st => rfl
        | none =>
          rw [getState_setState_nonvisible t i e.1 e.2 (hnv e (by simp)) i q]
          simp [Ne.symm hq]
    · simp only [hi, if_false]
      rw [getState_setState_nonvisible t instanceId e.1 e.2
        (hnv e (by simp)) i q]
      simp [hi]

theorem isManaged_innerFold (instanceId : InstanceId)
    (m : List (PathStr × ComponentState)) (t : CVisibilityData)
    (hnv : ∀ e ∈ m, e.2 ≠ CS_VISIBLE) (hm : m ≠ []) (i : InstanceId) :
    (m.foldl (fun t2 e => t2.SetState instanceId e.1 e.2) t).IsManaged i =
      if i = instanceId then true else t.IsManaged i := by
  induction m generalizing t with
  | nil => exact absurd rfl hm
  | cons e rest ih =>
    rw [List.foldl_cons]
    by_cases hr : rest = []
    · subst hr
      rw [List.foldl_nil]
      rw [isManaged_setState_nonvisible t instanceId e.1 e.2
        (hnv e (by simp)) i]
    · rw [ih _ (fun x hx => hnv x (by simp [hx])) hr]
      by_cases hi : i = instanceId
      · simp [hi]
      · simp only [hi, if_false]
        rw [isManaged_setState_nonvisible t instanceId e.1 e.2
          (hnv e (by simp)) i]
        simp [hi]

theorem getState_outerFold
    (d : List (InstanceId × List (PathStr × ComponentState)))
    (t : CVisibilityData)
    (hall : ∀ e ∈ d, (∀ pe ∈ e.2, pe.2 ≠ CS_VISIBLE) ∧
      (e.2.map Prod.fst).Nodup)
    (hnd : (d.map Prod.fst).Nodup) (i : InstanceId) (q : PathStr) :
    (d.foldl (fun t2 x =>
      x.2.foldl (fun t3 pe => t3.SetState x.1 pe.1 pe.2) t2) t).GetState i q =
      match alookup d i with
      | none => t.GetState i q
      | some m =>
        match alookup m q with
        | some st => st
        | none => t.GetState i q := by
  induction d generalizing t with
  | nil => rfl
  | cons x rest ih =>
    rw [List.map_cons, List.nodup_cons] at hnd
    obtain ⟨hx, hnd2⟩ := hnd
    rw [List.foldl_cons]
    rw [ih _ (fun e he => hall e (by simp [he])) hnd2]
    by_cases hi : x.1 = i
    · have hrest : alookup rest i = none :=
        alookup_none_of_not_mem_keys rest i (by rw [← hi]; exact hx)
      rw [hrest]
      rw [show alookup (x :: rest) i = some x.2 from by
        obtain ⟨k, v⟩ := x
        simp at hi
        simp [alookup, hi]]
      rw [getState_innerFold x.1 x.2 t (hall x (by simp)).1
        (hall x (by simp)).2 i q]
      simp [hi.symm]
    · rw [show alookup (x :: rest) i = alookup rest i from by
        obtain ⟨k, v⟩ := x
        simp at hi
        simp [alookup, hi]]
      rw [getState_innerFold x.1 x.2 t (hall x (by simp)).1
        (hall x (by simp)).2 i q]
      simp [Ne.symm hi]

theorem isManaged_outerFold
    (d : List (InstanceId × List (PathStr × ComponentState)))
    (t : CVisibilityData)
    (hall : ∀ e ∈ d, (∀ pe ∈ e.2, pe.2 ≠ CS_VISIBLE) ∧ e.2 ≠ [])
    (hnd : (d.map Prod.fst).Nodup) (i : InstanceId) :
    (d.foldl (fun t2 x =>
      x.2.foldl (fun t3 pe => t3.SetState x.1 pe.1 pe.2) t2) t).IsManaged i =
      match alookup d i with
      | none => t.IsManaged i
      | some _ => true := by
  induction d generalizing t with
  | nil => rfl
  | cons x rest ih =>
    rw [List.map_cons, List.nodup_cons] at hnd
    obtain ⟨hx, hnd2⟩ := hnd
    rw [List.foldl_cons]
    rw [ih _ (fun e he => hall e (by simp [he])) hnd2]
    by_cases hi : x.1 = i
    · have hrest : alookup rest i = none :=
        alookup_none_of_not_mem_keys rest i (by rw [← hi]; exact hx)
      rw [hrest]
      rw [show alookup (x :: rest) i = some x.2 from by
        obtain ⟨k, v⟩ := x
        simp at hi
        simp [alookup, hi]]
      rw [isManaged_innerFold x.1 x.2 t (hall x (by simp)).1
        (hall x (by simp)).2 i]
      simp [hi.symm]
    · rw [show alookup (x :: rest) i = alookup rest i from by
        obtain ⟨k, v⟩ := x
        simp at hi
        simp [alookup, hi]]
      rw [isManaged_innerFold x.1 x.2 t (hall x (by simp)).1
        (hall x (by simp)).2 i]
      simp [Ne.symm hi]

theorem mem_managedIds_iff (s : CVisibilityData)
    (hnd : (s.m_data.map Prod.fst).Nodup) (i : InstanceId) :
    i ∈ s.GetManagedInstanceIds ↔ s.IsManaged i = true := by
  unfold CVisibilityData.GetManagedInstanceIds CVisibilityData.IsManaged
  rw [List.mem_filterMap]
  constructor
  · rintro ⟨pr, hpr, hf⟩
    by_cases he : pr.2.isEmpty
    · simp [he] at hf
    · rw [if_neg he] at hf
      have hpr1 : pr.1 = i := by
        injection hf
      subst hpr1
      rw [alookup_eq_some_of_mem s.m_data pr.1 pr.2 hnd (by
        rw [show (pr.1, pr.2) = pr from rfl]
        exact hpr)]
      simp at he
      simp [isEmpty_false_of_ne_nil _ he]
  · intro h
    cases hd : alookup s.m_data i with
    | none =>
      rw [hd] at h
      exact absurd h (by simp)
    | some m =>
      rw [hd] at h
      refine ⟨(i, m), mem_of_alookup_eq_some _ _ _ hd, ?_⟩
      simp at h
      simp [h]

theorem storedSafe_empty : StoredSafe emptyStore := by
  intro e he
  simp [emptyStore] at he

theorem storedSafe_setState (s : CVisibilityData) (instanceId : InstanceId)
    (path : PathStr) (st : ComponentState) (hs : StoredSafe s)
    (hp : SafePath path) : StoredSafe (s.SetState instanceId path st) := by
  intro e he
  by_cases hst : st = CS_VISIBLE
  · subst hst
    unfold CVisibilityData.SetState at he
    rw [if_pos rfl] at he
    rw [rebuildPrefixes_m_data] at he
    cases hd : alookup s.m_data instanceId with
    | none =>
      simp only [hd] at he
      exact hs e he
    | some m =>
      simp only [hd] at he
      by_cases hnil : aerase m path = []
      · rw [if_pos hnil] at he
        exact hs e (mem_aerase _ _ _ he)
      · rw [if_neg hnil] at he
        rcases mem_aupsert _ _ _ _ he with h | h
        · rw [h]
          intro pe hpe
          exact hs (instanceId, m) (mem_of_alookup_eq_some _ _ _ hd) pe
            (mem_aerase _ _ _ hpe)
        · exact hs e h
  · rw [setState_m_data_nonvisible s instanceId path st hst] at he
    rcases mem_aupsert _ _ _ _ he with h | h
    · rw [h]
      intro pe hpe
      rcases mem_aupsert _ _ _ _ hpe with h2 | h2
      · rw [h2]
        exact hp
      · cases hd : alookup s.m_data instanceId with
        | none =>
          rw [hd] at h2
          simp at h2
        | some m0 =>
          rw [hd] at h2
          exact hs (instanceId, m0) (mem_of_alookup_eq_some _ _ _ hd) pe h2
    · exact hs e h

theorem storedSafe_applySetStates
    (ops : List (InstanceId × PathStr × ComponentState))
    (h : ∀ op ∈ ops, SafePath op.2.1) : StoredSafe (applySetStates ops) := by
  unfold applySetStates
  have hgen : ∀ (l : List (InstanceId × PathStr × ComponentState))
      (s : CVisibilityData), StoredSafe s → (∀ op ∈ l, SafePath op.2.1) →
      StoredSafe (l.foldl (fun s2 e => s2.SetState e.1 e.2.1 e.2.2) s) := by
    intro l
    induction l with
    | nil => intro s hs _; exact hs
    | cons op rest ih =>
      intro s hs h2
      rw [List.foldl_cons]
      exact ih _ (storedSafe_setState s op.1 op.2.1 op.2.2 hs
        (h2 op (by simp))) (fun x hx => h2 x (by simp [hx]))
  exact hgen ops emptyStore storedSafe_empty h

/-- C3: serializing a store built by `setState` calls (with paths from the
documented path syntax, i.e. free of the '|', ':' and newline separator
characters) and deserializing the text into a fresh empty store reproduces a
state-equivalent store: the same managed instances and, for every instance
and path, the same component state. -/
theorem serialize_deserialize_roundtrip
    (ops : List (InstanceId × PathStr × ComponentState))
    (hsafe : ∀ op ∈ ops, SafePath op.2.1) :
    StateEquiv
      (deserializeVisibilityState
        (serializeVisibilityState (applySetStates ops)) emptyStore)
      (applySetStates ops) := by
  have hwf := storeWF_applySetStates ops
  have hsafeS := storedSafe_applySetStates ops hsafe
  rw [deserialize_serialize _ hwf hsafeS]
  obtain ⟨hnd, hinner, -⟩ := hwf
  have hwfRep : StoreWF ((applySetStates ops).m_data.foldl (fun t d =>
      d.2.foldl (fun t2 e => t2.SetState d.1 e.1 e.2) t) emptyStore) :=
    storeWF_foldl _ (fun t x ht =>
      storeWF_foldl _ (fun t2 pe ht2 => storeWF_setState _ _ _ _ ht2)
        x.2 t ht) _ emptyStore storeWF_empty
  have hIM : ∀ i, ((applySetStates ops).m_data.foldl (fun t d =>
      d.2.foldl (fun t2 e => t2.SetState d.1 e.1 e.2) t)
        emptyStore).IsManaged i = (applySetStates ops).IsManaged i := by
    intro i
    rw [isManaged_outerFold _ _ (fun e he =>
      ⟨fun pe hpe => (hinner e he).1.2 pe hpe, (hinner e he).2⟩) hnd i]
    unfold CVisibilityData.IsManaged
    cases hd : alookup (applySetStates ops).m_data i with
    | none => rfl
    | some m =>
      simp [isEmpty_false_of_ne_nil _
        (hinner (i, m) (mem_of_alookup_eq_some _ _ _ hd)).2]
  refine ⟨hIM, ?_, ?_⟩
  · intro i q
    rw [getState_outerFold _ _ (fun e he =>
      ⟨fun pe hpe => (hinner e he).1.2 pe hpe, (hinner e he).1.1⟩) hnd i q]
    unfold CVisibilityData.GetState
    cases hd : alookup (applySetStates ops).m_data i with
    | none => rfl
    | some m =>
      cases hq : alookup m q with
      | none => simp [hq, emptyStore, alookup]
      | some st => simp [hq]
  · intro i
    rw [mem_managedIds_iff _ hwfRep.1 i, mem_managedIds_iff _ hnd i, hIM i]

/-- Witness for C3 on a concrete mixed store (hidden, suppressed and
transparent entries over two instances, including a later overwrite). -/
theorem serialize_deserialize_roundtrip_witness :
    (∀ op ∈ [((1 : InstanceId), (['1', '.', '0', '.', '2'] : PathStr),
        CS_HIDDEN),
      (2, ['0'], CS_SUPPRESSED),
      (1, ['3'], CS_TRANSPARENT),
      (1, ['3'], CS_VISIBLE)], SafePath op.2.1) ∧
    StateEquiv
      (deserializeVisibilityState
        (serializeVisibilityState (applySetStates
          [((1 : InstanceId), (['1', '.', '0', '.', '2'] : PathStr),
              CS_HIDDEN),
            (2, ['0'], CS_SUPPRESSED),
            (1, ['3'], CS_TRANSPARENT),
            (1, ['3'], CS_VISIBLE)])) emptyStore)
      (applySetStates
        [((1 : InstanceId), (['1', '.', '0', '.', '2'] : PathStr),
            CS_HIDDEN),
          (2, ['0'], CS_SUPPRESSED),
          (1, ['3'], CS_TRANSPARENT),
          (1, ['3'], CS_VISIBLE)]) :=
by
  have hs : ∀ op ∈ [((1 : InstanceId),
      (['1', '.', '0', '.', '2'] : PathStr), CS_HIDDEN),
      (2, ['0'], CS_SUPPRESSED),
      (1, ['3'], CS_TRANSPARENT),
      (1, ['3'], CS_VISIBLE)], SafePath op.2.1 := by
    intro op hop
    fin_cases hop <;> exact ⟨by decide, by decide, by decide⟩
  exact ⟨hs, serialize_deserialize_roundtrip
    [((1 : InstanceId), (['1', '.', '0', '.', '2'] : PathStr), CS_HIDDEN),
     (2, ['0'], CS_SUPPRESSED),
     (1, ['3'], CS_TRANSPARENT),
     (1, ['3'], CS_VISIBLE)] hs⟩

/-- C5 (code bug): in the per-frame draw pass, a leaf child whose exact path
has state CS_TRANSPARENT is drawn through the external renderer by the very
same `dp.DrawObject(pComponent, &instanceXform)` call as a Visible leaf: the
reduced-alpha colour the source computes (`transColor.SetAlpha(80)`) is never
passed to the pipeline, so no reduced-opacity signal distinct from the
normal draw exists.  Concretely: with components 0 (geometry 10) and 1
(geometry 20), the draw output for states {0 ↦ Transparent, 1 ↦ Hidden} is
identical to the output for states {1 ↦ Hidden} where component 0 is
Visible. -/
theorem transparent_leaf_draw_identical_to_visible :
    execConduitDrawObject
      (applySetStates [(1, ['0'], CS_TRANSPARENT),
        (1, ['1'], CS_HIDDEN)]).TakeSnapshot 1
      ⟨true, false, 7, true, [.geom true 10, .geom true 20]⟩ =
      some [⟨10, [7]⟩] ∧
    execConduitDrawObject
      (applySetStates [(1, ['1'], CS_HIDDEN)]).TakeSnapshot 1
      ⟨true, false, 7, true, [.geom true 10, .geom true 20]⟩ =
      some [⟨10, [7]⟩] := by
  constructor <;> decide

/-- C6 (counterexample): a selected managed instance whose only child is a
nested block (geometry 30, children geometries 31 and 32) with nested path
"0.1" Hidden.  The main draw pass recurses into the nested block and draws
the visible nested leaf "0.0" (geometry 31), but the selection-highlight
pass draws nothing at all for this instance: a nested child with hidden
descendants is skipped entirely (the recursion is a TODO in the source),
contradicting the claim that it is recursed into with the same rules as the
main pass. -/
theorem selection_highlight_skips_nested_with_hidden_descendants :
    drawSelectionHighlights
      (applySetStates [(1, ['0', '.', '1'], CS_HIDDEN)]).TakeSnapshot
      [(1, ⟨true, true, 7, true,
        [.instRef true 30 5 true [.geom true 31, .geom true 32]]⟩)] =
      [] ∧
    execConduitDrawObject
      (applySetStates [(1, ['0', '.', '1'], CS_HIDDEN)]).TakeSnapshot 1
      ⟨true, true, 7, true,
        [.instRef true 30 5 true [.geom true 31, .geom true 32]]⟩ =
      some [⟨31, [7, 5]⟩] := by
  constructor <;> decide

theorem highlightLoop_eq_spec (snap : CVisibilitySnapshot)
    (instanceId : InstanceId) (children : List RhComponent) (i : Nat)
    (xf : List Nat) :
    highlightLoop snap instanceId children i xf =
      (children.enumFrom i).flatMap (fun ic =>
        highlightChildSpec snap instanceId xf ic.1 ic.2) := by
  induction children generalizing i with
  | nil => rfl
  | cons child rest ih =>
    rw [show List.enumFrom i (child :: rest) =
      (i, child) :: List.enumFrom (i + 1) rest from rfl]
    rw [List.flatMap_cons]
    rw [show highlightLoop snap instanceId (child :: rest) i xf =
      (let path := natToChars i
       let state := snap.GetComponentState instanceId path
       if state = CS_HIDDEN ∨ state = CS_SUPPRESSED then []
       else
         match child with
         | .missing => []
         | .geom vis geo => if !vis then [] else [⟨geo, xf⟩]
         | .instRef vis geo _ _ _ =>
           if !vis then []
           else if !(snap.HasHiddenDescendants instanceId path) then
             [⟨geo, xf⟩]
           else []) ++
      highlightLoop snap instanceId rest (i + 1) xf from rfl]
    rw [ih (i + 1)]
    congr 1
    unfold highlightChildSpec
    by_cases hst : snap.GetComponentState instanceId (natToChars i) =
        CS_HIDDEN ∨
        snap.GetComponentState instanceId (natToChars i) = CS_SUPPRESSED
    · simp [hst]
    · simp only [hst, if_neg, if_false]
      cases child with
      | missing => rfl
      | geom vis geo => by_cases hv : vis <;> simp [hv]
      | instRef vis geo x hd ch =>
        by_cases hv : vis
        · by_cases hh : snap.HasHiddenDescendants instanceId (natToChars i)
          · simp [hv, hh]
          · simp [hv, hh]
        · simp [hv]

/-- C6 (amended): the selection-highlight pass re-draws, for every selected
managed instance reference with a definition, exactly its direct children
that are present, document-visible and not Hidden/Suppressed at their exact
path — a plain child with the instance transform, a nested-assembly child
drawn whole only when it has no hidden descendants; a nested-assembly child
whose subtree has hidden descendants is skipped entirely (no recursion — the
source leaves it as a TODO). -/
theorem drawSelectionHighlights_eq_spec (snap : CVisibilitySnapshot)
    (doc : RhDoc) :
    drawSelectionHighlights snap doc = selectionHighlightSpec snap doc := by
  unfold drawSelectionHighlights selectionHighlightSpec
  apply flatMap_congr_mem
  intro instanceId _
  cases alookup doc instanceId with
  | none => rfl
  | some obj =>
    by_cases hsel : obj.isSelected
    · by_cases href : obj.isInstanceRef
      · by_cases hdef : obj.hasDef
        · simp [hsel, href, hdef, highlightLoop_eq_spec]
        · simp [hsel, href, hdef]
      · simp [hsel, href]
    · simp [hsel]

mutual

theorem accumulateNestedBBox_congr (snap1 snap2 : CVisibilitySnapshot)
    (topLevelId : InstanceId)
    (hsup : ∀ p, (snap1.GetComponentState topLevelId p = CS_SUPPRESSED) ↔
      (snap2.GetComponentState topLevelId p = CS_SUPPRESSED))
    (hhd : ∀ p, snap1.HasHiddenDescendants topLevelId p =
      snap2.HasHiddenDescendants topLevelId p)
    (comp : RhComponent) (parentXform : List Nat) (parentPath : PathStr)
    (depth : Nat) :
    accumulateNestedBBox snap1 topLevelId comp parentXform parentPath depth =
      accumulateNestedBBox snap2 topLevelId comp parentXform parentPath
        depth := by
  cases comp with
  | missing => rfl
  | geom vis geo => rfl
  | instRef vis geo x hd children =>
    unfold accumulateNestedBBox
    by_cases hdep : MAX_NESTING_DEPTH ≤ depth
    · simp [hdep]
    · simp only [hdep, if_neg, if_false]
      by_cases hdefb : hd
      · simp only [hdefb]
        exact bboxNestedLoop_congr snap1 snap2 topLevelId hsup hhd children
          0 (parentXform ++ [x]) parentPath depth
      · simp [hdefb]

theorem bboxNestedLoop_congr (snap1 snap2 : CVisibilitySnapshot)
    (topLevelId : InstanceId)
    (hsup : ∀ p, (snap1.GetComponentState topLevelId p = CS_SUPPRESSED) ↔
      (snap2.GetComponentState topLevelId p = CS_SUPPRESSED))
    (hhd : ∀ p, snap1.HasHiddenDescendants topLevelId p =
      snap2.HasHiddenDescendants topLevelId p)
    (children : List RhComponent) (i : Nat) (combinedXform : List Nat)
    (parentPath : PathStr) (depth : Nat) :
    bboxNestedLoop snap1 topLevelId children i combinedXform parentPath
        depth =
      bboxNestedLoop snap2 topLevelId children i combinedXform parentPath
        depth := by
  cases children with
  | nil => rfl
  | cons child rest =>
    unfold bboxNestedLoop
    congr 1
    · by_cases hs1 : snap1.GetComponentState topLevelId (buildPath parentPath
          i) = CS_SUPPRESSED
      · rw [if_pos hs1, if_pos ((hsup (buildPath parentPath i)).mp hs1)]
      · rw [if_neg hs1,
          if_neg (fun hc => hs1 ((hsup (buildPath parentPath i)).mpr hc))]
        cases child with
        | missing => rfl
        | geom vis geo => rfl
        | instRef vis geo x hd ch =>
          by_cases hv : vis
          · simp only [hv]
            rw [hhd (buildPath parentPath i)]
            by_cases hh : snap2.HasHiddenDescendants topLevelId
                (buildPath parentPath i)
            · simp only [hh, if_pos]
              exact accumulateNestedBBox_congr snap1 snap2 topLevelId hsup
                hhd (.instRef vis geo x hd ch) combinedXform
                (buildPath parentPath i) (depth + 1)
            · simp [hh]
          · simp [hv]
    · exact bboxNestedLoop_congr snap1 snap2 topLevelId hsup hhd rest
        (i + 1) combinedXform parentPath depth

end

theorem bboxTopLoop_congr (snap1 snap2 : CVisibilitySnapshot)
    (topLevelId : InstanceId)
    (hsup : ∀ p, (snap1.GetComponentState topLevelId p = CS_SUPPRESSED) ↔
      (snap2.GetComponentState topLevelId p = CS_SUPPRESSED))
    (hhd : ∀ p, snap1.HasHiddenDescendants topLevelId p =
      snap2.HasHiddenDescendants topLevelId p)
    (children : List RhComponent) (i : Nat) (instXform : List Nat) :
    bboxTopLoop snap1 topLevelId children i instXform =
      bboxTopLoop snap2 topLevelId children i instXform := by
  induction children generalizing i with
  | nil => rfl
  | cons child rest ih =>
    unfold bboxTopLoop
    congr 1
    · by_cases hs1 : snap1.GetComponentState topLevelId (natToChars i) =
          CS_SUPPRESSED
      · rw [if_pos hs1, if_pos ((hsup (natToChars i)).mp hs1)]
      · rw [if_neg hs1, if_neg (fun hc => hs1 ((hsup (natToChars i)).mpr hc))]
        cases child with
        | missing => rfl
        | geom vis geo => rfl
        | instRef vis geo x hd ch =>
          by_cases hv : vis
          · simp only [hv]
            rw [hhd (natToChars i)]
            by_cases hh : snap2.HasHiddenDescendants topLevelId (natToChars i)
            · simp only [hh, if_pos]
              exact accumulateNestedBBox_congr snap1 snap2 topLevelId hsup
                hhd (.instRef vis geo x hd ch) instXform (natToChars i) 0
            · simp [hh]
          · simp [hv]
    · exact ih (i + 1)

theorem bboxNestedLoop_suppressed_head (snap : CVisibilitySnapshot)
    (topLevelId : InstanceId) (child : RhComponent)
    (rest : List RhComponent) (i : Nat) (combinedXform : List Nat)
    (parentPath : PathStr) (depth : Nat)
    (h : snap.GetComponentState topLevelId (buildPath parentPath i) =
      CS_SUPPRESSED) :
    bboxNestedLoop snap topLevelId (child :: rest) i combinedXform
        parentPath depth =
      bboxNestedLoop snap topLevelId rest (i + 1) combinedXform parentPath
        depth := by
  rw [show bboxNestedLoop snap topLevelId (child :: rest) i combinedXform
      parentPath depth =
    (let childPath := buildPath parentPath i
     let state := snap.GetComponentState topLevelId childPath
     if state = CS_SUPPRESSED then []
     else
       match child with
       | .missing => []
       | .geom vis geo => if !vis then [] else [⟨geo, combinedXform⟩]
       | .instRef vis geo _ _ _ =>
         if !vis then []
         else if snap.HasHiddenDescendants topLevelId childPath then
           accumulateNestedBBox snap topLevelId child combinedXform
             childPath (depth + 1)
         else [⟨geo, combinedXform⟩]) ++
    bboxNestedLoop snap topLevelId rest (i + 1) combinedXform parentPath
      depth from rfl]
  simp [h]

theorem bboxTopLoop_suppressed_head (snap : CVisibilitySnapshot)
    (topLevelId : InstanceId) (child : RhComponent)
    (rest : List RhComponent) (i : Nat) (instXform : List Nat)
    (h : snap.GetComponentState topLevelId (natToChars i) = CS_SUPPRESSED) :
    bboxTopLoop snap topLevelId (child :: rest) i instXform =
      bboxTopLoop snap topLevelId rest (i + 1) instXform := by
  rw [show bboxTopLoop snap topLevelId (child :: rest) i instXform =
    (let path := natToChars i
     let state := snap.GetComponentState topLevelId path
     if state = CS_SUPPRESSED then []
     else
       match child with
       | .missing => []
       | .geom vis geo => if !vis then [] else [⟨geo, instXform⟩]
       | .instRef vis geo _ _ _ =>
         if !vis then []
         else if snap.HasHiddenDescendants topLevelId path then
           accumulateNestedBBox snap topLevelId child instXform path 0
         else [⟨geo, instXform⟩]) ++
    bboxTopLoop snap topLevelId rest (i + 1) instXform from rfl]
  simp [h]

theorem bboxNestedLoop_geom_head (snap : CVisibilitySnapshot)
    (topLevelId : InstanceId) (geo : Nat) (rest : List RhComponent)
    (i : Nat) (combinedXform : List Nat) (parentPath : PathStr)
    (depth : Nat)
    (h : ¬(snap.GetComponentState topLevelId (buildPath parentPath i) =
      CS_SUPPRESSED)) :
    bboxNestedLoop snap topLevelId (.geom true geo :: rest) i combinedXform
        parentPath depth =
      (⟨geo, combinedXform⟩ : BoxContrib) ::
        bboxNestedLoop snap topLevelId rest (i + 1) combinedXform parentPath
          depth := by
  rw [show bboxNestedLoop snap topLevelId (.geom true geo :: rest) i
      combinedXform parentPath depth =
    (let childPath := buildPath parentPath i
     let state := snap.GetComponentState topLevelId childPath
     if state = CS_SUPPRESSED then []
     else [(⟨geo, combinedXform⟩ : BoxContrib)]) ++
    bboxNestedLoop snap topLevelId rest (i + 1) combinedXform parentPath
      depth from rfl]
  simp [h]

theorem bboxTopLoop_geom_head (snap : CVisibilitySnapshot)
    (topLevelId : InstanceId) (geo : Nat) (rest : List RhComponent)
    (i : Nat) (instXform : List Nat)
    (h : ¬(snap.GetComponentState topLevelId (natToChars i) =
      CS_SUPPRESSED)) :
    bboxTopLoop snap topLevelId (.geom true geo :: rest) i instXform =
      (⟨geo, instXform⟩ : BoxContrib) ::
        bboxTopLoop snap topLevelId rest (i + 1) instXform := by
  rw [show bboxTopLoop snap topLevelId (.geom true geo :: rest) i
      instXform =
    (let path := natToChars i
     let state := snap.GetComponentState topLevelId path
     if state = CS_SUPPRESSED then []
     else [(⟨geo, instXform⟩ : BoxContrib)]) ++
    bboxTopLoop snap topLevelId rest (i + 1) instXform from rfl]
  simp [h]

/-- C7: in the bounding-box pass, at every depth of the traversal only the
test "exact state = CS_SUPPRESSED" excludes a component: (i) a component
whose exact path is Suppressed contributes nothing — the loop result is
that of the remaining siblings alone, both in the top-level loop and in the
nested loop; (ii) a visible leaf contributes its transformed box whenever
its state is not Suppressed — so a Hidden (or Transparent) leaf contributes
exactly as a Visible one; and (iii) the whole traversal output depends on
the per-path states only through the Suppressed projection: two snapshots
agreeing on which paths are Suppressed and on the hasHiddenDescendants
oracle produce identical bounding-box output, hence Hidden states may be
replaced by any non-Suppressed state without changing the contributed
box. -/
theorem bbox_suppressed_excluded_hidden_contributes
    (snap1 snap2 snap : CVisibilitySnapshot) (topLevelId : InstanceId)
    (hsup : ∀ p, (snap1.GetComponentState topLevelId p = CS_SUPPRESSED) ↔
      (snap2.GetComponentState topLevelId p = CS_SUPPRESSED))
    (hhd : ∀ p, snap1.HasHiddenDescendants topLevelId p =
      snap2.HasHiddenDescendants topLevelId p) :
    (∀ comp xf pp depth,
      accumulateNestedBBox snap1 topLevelId comp xf pp depth =
        accumulateNestedBBox snap2 topLevelId comp xf pp depth) ∧
    (∀ children i xf, bboxTopLoop snap1 topLevelId children i xf =
      bboxTopLoop snap2 topLevelId children i xf) ∧
    (∀ (child : RhComponent) rest i xf pp depth,
      snap.GetComponentState topLevelId (buildPath pp i) = CS_SUPPRESSED →
      bboxNestedLoop snap topLevelId (child :: rest) i xf pp depth =
        bboxNestedLoop snap topLevelId rest (i + 1) xf pp depth) ∧
    (∀ (child : RhComponent) rest i xf,
      snap.GetComponentState topLevelId (natToChars i) = CS_SUPPRESSED →
      bboxTopLoop snap topLevelId (child :: rest) i xf =
        bboxTopLoop snap topLevelId rest (i + 1) xf) ∧
    (∀ geo rest i xf pp depth,
      ¬(snap.GetComponentState topLevelId (buildPath pp i) =
        CS_SUPPRESSED) →
      bboxNestedLoop snap topLevelId (.geom true geo :: rest) i xf pp
          depth =
        (⟨geo, xf⟩ : BoxContrib) ::
          bboxNestedLoop snap topLevelId rest (i + 1) xf pp depth) ∧
    (∀ geo rest i xf,
      ¬(snap.GetComponentState topLevelId (natToChars i) = CS_SUPPRESSED) →
      bboxTopLoop snap topLevelId (.geom true geo :: rest) i xf =
        (⟨geo, xf⟩ : BoxContrib) ::
          bboxTopLoop snap topLevelId rest (i + 1) xf) :=
  ⟨fun comp xf pp depth =>
      accumulateNestedBBox_congr snap1 snap2 topLevelId hsup hhd comp xf pp
        depth,
   fun children i xf =>
      bboxTopLoop_congr snap1 snap2 topLevelId hsup hhd children i xf,
   fun child rest i xf pp depth h =>
      bboxNestedLoop_suppressed_head snap topLevelId child rest i xf pp
        depth h,
   fun child rest i xf h =>
      bboxTopLoop_suppressed_head snap topLevelId child rest i xf h,
   fun geo rest i xf pp depth h =>
      bboxNestedLoop_geom_head snap topLevelId geo rest i xf pp depth h,
   fun geo rest i xf h =>
      bboxTopLoop_geom_head snap topLevelId geo rest i xf h⟩

/-- Witness for C7: two concrete snapshots over instance 1 that store paths
"0" and "1" with states Hidden/Hidden and Transparent/Hidden
respectively — they agree on the Suppressed projection (no path is
Suppressed) and on the prefix sets, so the theorem applies and the
bounding-box outputs coincide. -/
theorem bbox_suppressed_excluded_hidden_contributes_witness :
    (∀ p, ((applySetStates [(1, ['0'], CS_HIDDEN),
        (1, ['1'], CS_HIDDEN)]).TakeSnapshot.GetComponentState 1 p =
        CS_SUPPRESSED) ↔
      ((applySetStates [(1, ['0'], CS_TRANSPARENT),
        (1, ['1'], CS_HIDDEN)]).TakeSnapshot.GetComponentState 1 p =
        CS_SUPPRESSED)) ∧
    (∀ p, (applySetStates [(1, ['0'], CS_HIDDEN),
        (1, ['1'], CS_HIDDEN)]).TakeSnapshot.HasHiddenDescendants 1 p =
      (applySetStates [(1, ['0'], CS_TRANSPARENT),
        (1, ['1'], CS_HIDDEN)]).TakeSnapshot.HasHiddenDescendants 1 p) ∧
    (∀ comp xf pp depth,
      accumulateNestedBBox (applySetStates [(1, ['0'], CS_HIDDEN),
          (1, ['1'], CS_HIDDEN)]).TakeSnapshot 1 comp xf pp depth =
        accumulateNestedBBox (applySetStates [(1, ['0'], CS_TRANSPARENT),
          (1, ['1'], CS_HIDDEN)]).TakeSnapshot 1 comp xf pp depth) := by
  have hsup : ∀ p, ((applySetStates [(1, ['0'], CS_HIDDEN),
      (1, ['1'], CS_HIDDEN)]).TakeSnapshot.GetComponentState 1 p =
      CS_SUPPRESSED) ↔
      ((applySetStates [(1, ['0'], CS_TRANSPARENT),
      (1, ['1'], CS_HIDDEN)]).TakeSnapshot.GetComponentState 1 p =
      CS_SUPPRESSED) := by
    intro p
    by_cases h0 : (['0'] : PathStr) = p
    · subst h0
      decide
    · by_cases h1 : (['1'] : PathStr) = p
      · subst h1
        decide
      · have hA : (applySetStates [(1, ['0'], CS_HIDDEN),
            (1, ['1'], CS_HIDDEN)]).TakeSnapshot.GetComponentState 1 p =
            CS_VISIBLE := by
          show (match alookup [((['0'] : PathStr), CS_HIDDEN),
            (['1'], CS_HIDDEN)] p with
            | none => CS_VISIBLE
            | some s => s) = CS_VISIBLE
          simp [alookup, h0, h1]
        have hB : (applySetStates [(1, ['0'], CS_TRANSPARENT),
            (1, ['1'], CS_HIDDEN)]).TakeSnapshot.GetComponentState 1 p =
            CS_VISIBLE := by
          show (match alookup [((['0'] : PathStr), CS_TRANSPARENT),
            (['1'], CS_HIDDEN)] p with
            | none => CS_VISIBLE
            | some s => s) = CS_VISIBLE
          simp [alookup, h0, h1]
        rw [hA, hB]
  have hhd : ∀ p, (applySetStates [(1, ['0'], CS_HIDDEN),
      (1, ['1'], CS_HIDDEN)]).TakeSnapshot.HasHiddenDescendants 1 p =
      (applySetStates [(1, ['0'], CS_TRANSPARENT),
      (1, ['1'], CS_HIDDEN)]).TakeSnapshot.HasHiddenDescendants 1 p := by
    intro p
    rfl
  exact ⟨hsup, hhd,
    (bbox_suppressed_excluded_hidden_contributes _ _
      (applySetStates [(1, ['0'], CS_HIDDEN),
        (1, ['1'], CS_HIDDEN)]).TakeSnapshot 1 hsup hhd).1⟩
